import Mathlib

/-!
Shallow embedding of `src/SCTE35Decoder.py` (an SCTE-35 splice-information
decoder built on a bit cursor) together with theorems checking the
specification's claims against it.

The Python code reads from a `bitstring.BitString` positioned cursor.  The
cursor is modelled as a list of bits plus a bit offset.  The `bitstring`
library raises `ReadError` when a `read` would run past the end of the data
and `ValueError` when `pos` is advanced past the end; both conditions are
"a field read/seek would run past the end of the buffer" and are modelled
uniformly as `Err.truncatedInput`.  The decoder's own `raise
SCTE35_SpliceInfoSectionException(msg)` statements are modelled as
`Err.spliceInfoSectionException msg` with the same format strings.  The
`AttributeError` raised by setting an attribute on a `dict` (line 275 of the
source) is modelled as `Err.attributeError`.
-/

namespace SCTE35

/-- Errors that can escape a `parse` call. -/
inductive Err where
  | truncatedInput
  | spliceInfoSectionException (msg : String)
  | attributeError
deriving DecidableEq

/-- True when two errors are values of the same error kind (same
constructor), regardless of any message string they carry. -/
def Err.sameKind : Err → Err → Bool
  | .truncatedInput, .truncatedInput => true
  | .spliceInfoSectionException _, .spliceInfoSectionException _ => true
  | .attributeError, .attributeError => true
  | _, _ => false

/-- The bit cursor: `bitstring.BitString(bytes=...)` plus its `pos`. -/
structure BitCursor where
  data : List Bool
  pos : Nat
deriving DecidableEq

/-- Big-endian unsigned value of a bit list (how `read("uint:n")`
interprets the n bits it consumes). -/
def bitsToNat (bs : List Bool) : Nat :=
  bs.foldl (fun a b => 2 * a + (if b then 1 else 0)) 0

/-- The eight bits of one byte, most significant first. -/
def byteToBits (b : Nat) : List Bool :=
  [b / 128 % 2 == 1, b / 64 % 2 == 1, b / 32 % 2 == 1, b / 16 % 2 == 1,
   b / 8 % 2 == 1, b / 4 % 2 == 1, b / 2 % 2 == 1, b % 2 == 1]

/-- The bit content of a byte buffer. -/
def bytesToBits (bs : List Nat) : List Bool :=
  (bs.map byteToBits).flatten

/-- `bitstring.BitString(bytes=input_bytes)`: cursor at offset 0. -/
def mkCursor (bytes : List Nat) : BitCursor :=
  ⟨bytesToBits bytes, 0⟩

/-- `bitarray.read("uint:n")` (also used for the opaque `hex:`/`bin:`
fields, whose raw bit value is kept as a `Nat`).  Fails when the read would
run past the end of the data. -/
def readBits (n : Nat) (c : BitCursor) : Except Err (Nat × BitCursor) :=
  if c.pos + n ≤ c.data.length then
    .ok (bitsToNat ((c.data.drop c.pos).take n), ⟨c.data, c.pos + n⟩)
  else
    .error .truncatedInput

/-- `bitarray.read("bool")`: one bit. -/
def readBool (c : BitCursor) : Except Err (Bool × BitCursor) := do
  let (v, c) ← readBits 1 c
  pure (v == 1, c)

/-- `bitarray.pos += n`: skip reserved bits.  Fails when the seek would go
past the end of the data. -/
def skip (n : Nat) (c : BitCursor) : Except Err BitCursor :=
  if c.pos + n ≤ c.data.length then
    .ok ⟨c.data, c.pos + n⟩
  else
    .error .truncatedInput

/-- The value a successful `readBits` at offset `off` yields: the
big-endian uint of bits `off, off+1, ..., off+n-1`. -/
def uintAt (data : List Bool) (off n : Nat) : Nat :=
  bitsToNat ((data.drop off).take n)

/-- The single bit at offset `i` (used to state exact-bit claims). -/
def bitAt (data : List Bool) (i : Nat) : Bool :=
  data.getD i false

theorem bytesToBits_cons (b : Nat) (bs : List Nat) :
    bytesToBits (b :: bs) = byteToBits b ++ bytesToBits bs := by
  simp [bytesToBits]

theorem byteToBits_length (b : Nat) : (byteToBits b).length = 8 := by
  simp [byteToBits]

theorem bytesToBits_length (bs : List Nat) :
    (bytesToBits bs).length = 8 * bs.length := by
  induction bs with
  | nil => simp [bytesToBits]
  | cons b t ih =>
      rw [bytesToBits_cons]
      simp [byteToBits_length, ih]
      ring

theorem readBits_ok {n : Nat} {c : BitCursor} {v : Nat} {c' : BitCursor}
    (h : readBits n c = .ok (v, c')) :
    c'.data = c.data ∧ c'.pos = c.pos + n ∧ c.pos + n ≤ c.data.length ∧
      v = uintAt c.data c.pos n := by
  unfold readBits at h
  split at h
  · simp only [Except.ok.injEq, Prod.mk.injEq] at h
    obtain ⟨hv, hc⟩ := h
    subst hc
    simp_all [uintAt]
  · cases h

theorem readBits_err {n : Nat} {c : BitCursor}
    (h : c.data.length < c.pos + n) :
    readBits n c = .error .truncatedInput := by
  unfold readBits
  rw [if_neg]
  omega

theorem skip_ok {n : Nat} {c : BitCursor} {c' : BitCursor}
    (h : skip n c = .ok c') :
    c'.data = c.data ∧ c'.pos = c.pos + n ∧ c.pos + n ≤ c.data.length := by
  unfold skip at h
  split at h
  · simp only [Except.ok.injEq] at h
    subst h
    simp_all
  · cases h

theorem readBool_ok {c : BitCursor} {b : Bool} {c' : BitCursor}
    (h : readBool c = .ok (b, c')) :
    c'.data = c.data ∧ c'.pos = c.pos + 1 ∧ c.pos + 1 ≤ c.data.length ∧
      b = bitAt c.data c.pos := by
  unfold readBool at h
  cases hr : readBits 1 c with
  | error e => rw [hr] at h; cases h
  | ok p =>
      obtain ⟨v, c₁⟩ := p
      rw [hr] at h
      simp only [bind, Except.bind, pure, Except.pure, Except.ok.injEq,
        Prod.mk.injEq] at h
      obtain ⟨hb, hc⟩ := h
      obtain ⟨hd, hp, hle, hv⟩ := readBits_ok hr
      subst hc hb hv
      refine ⟨hd, hp, hle, ?_⟩
      have hlt : c.pos < c.data.length := by omega
      have hone : (c.data.drop c.pos).take 1 = [c.data[c.pos]] :=
        List.take_one_drop_eq_of_lt_length hlt
      rw [uintAt, hone]
      have hget : bitAt c.data c.pos = c.data[c.pos] := by
        simp [bitAt, List.getD_eq_getElem?_getD, List.getElem?_eq_getElem hlt]
      rw [hget, bitsToNat]
      cases hgb : c.data[c.pos] <;> simp [hgb]

/-! ## Data model

The Python classes set most attributes to `None` in `__init__` and fill
them in conditionally while parsing; fields that can stay unset are
therefore `Option`-valued.  `SCTE35_SpliceInsert.__init__` only stores
`splice_id` and an empty `components` list; the remaining attributes are
added dynamically by the parser (only on the not-cancelled path, which is
the only path on which the object is returned at all). -/

/-- `SCTE35_SpliceInsert.Splice_Time` / `SCTE35_TimeSignal.Splice_Time`. -/
structure Splice_Time where
  time_specified_flag : Bool
  pts_time : Option Nat
deriving DecidableEq

/-- `SCTE35_SpliceInsert.Component`. -/
structure Component where
  tag : Nat
  splice_time : Option Splice_Time
deriving DecidableEq

/-- `SCTE35_SpliceInsert.BreakDuration`. -/
structure BreakDuration where
  auto_return : Bool
  duration : Nat
deriving DecidableEq

/-- `SCTE35_SpliceInsert` as populated by `__parse_splice_insert` on the
not-cancelled path (the only path that returns the object). -/
structure SCTE35_SpliceInsert where
  splice_id : Nat
  splice_event_cancel_indicator : Bool
  out_of_network_indicator : Bool
  program_splice_flag : Bool
  duration_flag : Bool
  splice_immediate_flag : Bool
  splice_time : Option Splice_Time
  component_count : Option Nat
  components : List Component
  break_duration : Option BreakDuration
  unique_program_id : Nat
  avail_num : Nat
  avails_expected : Nat
deriving DecidableEq

/-- `SCTE35_TimeSignal`. -/
structure SCTE35_TimeSignal where
  splice_time : Splice_Time
deriving DecidableEq

/-- The shape the per-component record of the segmentation descriptor is
meant to have (`component_tag`, `pts_offset`).  The source builds it from
a `dict` literal and immediately fails, so no value of this type is ever
constructed by a successful parse. -/
structure SegComponent where
  component_tag : Nat
  pts_offset : Nat
deriving DecidableEq

/-- `SCTE35_SegmentationDescriptor`: every attribute starts out as `None`
in `__init__` (here `none`) and is conditionally assigned while parsing.
The common header fields `splice_descriptor_tag`, `descriptor_length` and
`identifier` are assigned by the descriptor loop after the tag dispatch. -/
structure SCTE35_SegmentationDescriptor where
  splice_descriptor_tag : Option Nat := none
  descriptor_length : Option Nat := none
  identifier : Option Nat := none
  segmentation_event_id : Option Nat := none
  segmentation_event_cancel_indicator : Option Bool := none
  program_segmentation_flag : Option Bool := none
  segmentation_duration_flag : Option Bool := none
  delivery_not_restricted_flag : Option Bool := none
  web_delivery_allowed_flag : Option Bool := none
  no_regional_blackout_flag : Option Bool := none
  archive_allowed_flag : Option Bool := none
  device_restrictions : Option Nat := none
  component_count : Option Nat := none
  components : Option (List SegComponent) := none
  segmentation_duration : Option Nat := none
  segmentation_upid_type : Option Nat := none
  segmentation_upid_length : Option Nat := none
  segmentation_upid : Option Nat := none
  segmentation_type_id : Option Nat := none
  segment_num : Option Nat := none
  segments_expected : Option Nat := none
  sub_segment_num : Option Nat := none
  sub_segments_expected : Option Nat := none
deriving DecidableEq

/-- The two splice-command payloads the dispatcher can produce. -/
inductive SpliceCommand where
  | spliceInsert (si : SCTE35_SpliceInsert)
  | timeSignal (ts : SCTE35_TimeSignal)
deriving DecidableEq

/-- The fixed header fields read by `parse` (source lines 134-148).  The
Python `SCTE35_SpliceInfoSection.__init__` only validates `table_id`
without storing it; it is kept here so the header layout can be stated.
The attribute named `private` in the source is a Lean keyword and is
rendered `private_indicator`. -/
structure HeaderPart where
  table_id : Nat
  section_syntax_indicator : Bool
  private_indicator : Bool
  section_length : Nat
  protocol_version : Nat
  encrypted_packet : Bool
  encryption_algorithm : Nat
  pts_adjustment : Nat
  cw_index : Nat
  tier : Nat
  splice_command_length : Nat
deriving DecidableEq

/-- `SCTE35_SpliceInfoSection` as returned by `parse`.  `splice_command`
is `none` exactly when `__parse_splice_insert` returned Python `None`
(the cancelled splice-insert path); `splice_descriptors` is `none` when
the descriptor loop length is 0 (the attribute stays `None`). -/
structure SCTE35_SpliceInfoSection extends HeaderPart where
  splice_command_type : Nat
  splice_command : Option SpliceCommand
  splice_descriptor_loop_length : Nat
  splice_descriptors : Option (List SCTE35_SegmentationDescriptor)
deriving DecidableEq

/-! ## Parsers -/

/-- `__parse_splice_time` (source lines 170-181). -/
def parseSpliceTime (c : BitCursor) : Except Err (Splice_Time × BitCursor) := do
  let (flag, c) ← readBool c
  if flag then
    let c ← skip 6 c
    let (pts, c) ← readBits 33 c
    pure (⟨flag, some pts⟩, c)
  else
    let c ← skip 7 c
    pure (⟨flag, none⟩, c)

/-- `__parse_break_duration` (source lines 183-188). -/
def parseBreakDuration (c : BitCursor) : Except Err (BreakDuration × BitCursor) := do
  let (auto_return, c) ← readBool c
  let c ← skip 6 c
  let (duration, c) ← readBits 33 c
  pure (⟨auto_return, duration⟩, c)

/-- `__parse_time_signal` (source lines 190-193). -/
def parseTimeSignal (c : BitCursor) : Except Err (SCTE35_TimeSignal × BitCursor) := do
  let (st, c) ← parseSpliceTime c
  pure (⟨st⟩, c)

/-- A conditional splice-time read: `__parse_splice_time` is invoked and
its result stored only when `cond` holds, otherwise the attribute stays
unset.  Used for the command-level `splice_time` (condition
`program_splice_flag and not splice_immediate_flag`, source line 210) and
for each component's `splice_time` (condition `splice_immediate_flag`,
source line 218). -/
def readSpliceTimeIf (cond : Bool) (c : BitCursor) :
    Except Err (Option Splice_Time × BitCursor) :=
  if cond then do
    let (st, c) ← parseSpliceTime c
    pure (some st, c)
  else
    pure (none, c)

/-- The component loop of `__parse_splice_insert` (source lines 216-220):
reads `count` components, each an 8-bit tag plus, when
`splice_immediate_flag` is set, a splice time. -/
def insertComponentLoop (count : Nat) (imm : Bool) (c : BitCursor) :
    Except Err (List Component × BitCursor) :=
  match count with
  | 0 => .ok ([], c)
  | count + 1 => do
      let (tag, c) ← readBits 8 c
      let (st, c) ← readSpliceTimeIf imm c
      let (rest, c) ← insertComponentLoop count imm c
      pure (⟨tag, st⟩ :: rest, c)

/-- The `if not ssi.program_splice_flag` block of `__parse_splice_insert`
(source lines 213-220): reads the 8-bit component count and the
components when the flag is clear, otherwise leaves the count unset and
the component list as initialized (empty). -/
def insertComponentsIf (psf imm : Bool) (c : BitCursor) :
    Except Err (Option Nat × List Component × BitCursor) :=
  if !psf then do
    let (cnt, c) ← readBits 8 c
    let (comps, c) ← insertComponentLoop cnt imm c
    pure (some cnt, comps, c)
  else
    pure (none, [], c)

/-- The `if ssi.duration_flag` block of `__parse_splice_insert` (source
lines 223-224). -/
def readBreakDurationIf (dur : Bool) (c : BitCursor) :
    Except Err (Option BreakDuration × BitCursor) :=
  if dur then do
    let (bd, c) ← parseBreakDuration c
    pure (some bd, c)
  else
    pure (none, c)

/-- `__parse_splice_insert` (source lines 195-229).  The `return ssi`
statement sits inside the `if not ssi.splice_event_cancel_indicator`
block, so on the cancelled path the Python function falls off the end and
returns `None`; that is modelled as `.ok (none, c)`. -/
def parseSpliceInsert (c : BitCursor) :
    Except Err (Option SCTE35_SpliceInsert × BitCursor) := do
  let (splice_event_id, c) ← readBits 32 c
  let (cancel, c) ← readBool c
  let c ← skip 7 c
  if cancel then
    pure (none, c)
  else
    let (out_of_network, c) ← readBool c
    let (program_splice, c) ← readBool c
    let (duration_flag, c) ← readBool c
    let (immediate, c) ← readBool c
    let c ← skip 4 c
    let (splice_time, c) ← readSpliceTimeIf (program_splice && !immediate) c
    let (component_count, components, c) ←
      insertComponentsIf program_splice immediate c
    let (break_duration, c) ← readBreakDurationIf duration_flag c
    let (unique_program_id, c) ← readBits 16 c
    let (avail_num, c) ← readBits 8 c
    let (avails_expected, c) ← readBits 8 c
    pure (some
      { splice_id := splice_event_id
        splice_event_cancel_indicator := cancel
        out_of_network_indicator := out_of_network
        program_splice_flag := program_splice
        duration_flag := duration_flag
        splice_immediate_flag := immediate
        splice_time := splice_time
        component_count := component_count
        components := components
        break_duration := break_duration
        unique_program_id := unique_program_id
        avail_num := avail_num
        avails_expected := avails_expected }, c)

/-- The per-component loop of the segmentation descriptor (source lines
273-279).  `component = {}` builds a `dict`; the next line
`component.component_tag = bitarray.read("uint:8")` first performs the
8-bit read (the right-hand side) and then raises `AttributeError`,
because a `dict` has no such attribute.  The reads of the 7 reserved bits
and the 33-bit `pts_offset`, and the append with its `length -= 6`, are
unreachable.  A count of 0 skips the loop body entirely. -/
def segComponentLoop (count : Nat) (c : BitCursor) :
    Except Err (List SegComponent × BitCursor) :=
  match count with
  | 0 => .ok ([], c)
  | _ + 1 => do
      let (_tag, _c) ← readBits 8 c
      throw Err.attributeError

/-- The delivery-restriction flag byte of the segmentation descriptor
(source lines 260-267): when delivery IS restricted the three flags and
the 2-bit `device_restrictions` are read; otherwise 5 bits are skipped
and the attributes stay unset.  Either way 1 byte is consumed. -/
def segRestrictionFlags (dnr : Bool) (c : BitCursor) :
    Except Err (Option Bool × Option Bool × Option Bool × Option Nat ×
      BitCursor) :=
  if !dnr then do
    let (w, c) ← readBool c
    let (nr, c) ← readBool c
    let (ar, c) ← readBool c
    let (dr, c) ← readBits 2 c
    pure (some w, some nr, some ar, some dr, c)
  else do
    let c ← skip 5 c
    pure (none, none, none, none, c)

/-- The `if not splice_desc.program_segmentation_flag` block (source
lines 269-279): reads the component count and the component loop.  The
returned `Nat` is the number of bytes the block subtracts from the
enclosing loop counter (1 for the count byte; the per-component
`length -= 6` is unreachable, see `segComponentLoop`). -/
def segComponentsIf (psf : Bool) (c : BitCursor) :
    Except Err (Option Nat × Option (List SegComponent) × BitCursor × Nat) :=
  if !psf then do
    let (cnt, c) ← readBits 8 c
    let (comps, c) ← segComponentLoop cnt c
    pure (some cnt, some comps, c, 1)
  else
    pure (none, none, c, 0)

/-- The `if splice_desc.segmentation_duration_flag` block (source lines
281-283): a 40-bit duration costing 5 bytes of the loop counter. -/
def segDurationIf (sdf : Bool) (c : BitCursor) :
    Except Err (Option Nat × BitCursor × Nat) :=
  if sdf then do
    let (d, c) ← readBits 40 c
    pure (some d, c, 5)
  else
    pure (none, c, 0)

/-- The sub-segment fields read only for `segmentation_type_id` 0x34 or
0x36 (source lines 295-298), costing 2 bytes of the loop counter. -/
def segSubSegmentsIf (cond : Bool) (c : BitCursor) :
    Except Err (Option Nat × Option Nat × BitCursor × Nat) :=
  if cond then do
    let (ssn, c) ← readBits 8 c
    let (sse, c) ← readBits 8 c
    pure (some ssn, some sse, c, 2)
  else
    pure (none, none, c, 0)

/-- The `splice_descriptor_tag == 0x02` branch of
`__parse_splice_descriptors` (source lines 249-298).  The returned `Nat`
is the total number of bytes the branch subtracts from the loop's running
`length` counter (the sum of the `length -= ...` statements executed). -/
def parseSegmentationDescriptor (c : BitCursor) :
    Except Err (SCTE35_SegmentationDescriptor × BitCursor × Nat) := do
  let (event_id, c) ← readBits 32 c
  let (cancel, c) ← readBool c
  let c ← skip 7 c
  if cancel then
    pure ({ segmentation_event_id := some event_id
            segmentation_event_cancel_indicator := some cancel }, c, 5)
  else
    let (psf, c) ← readBool c
    let (sdf, c) ← readBool c
    let (dnr, c) ← readBool c
    let (web, noRegional, archive, deviceRestrictions, c) ←
      segRestrictionFlags dnr c
    let (component_count, components, c, sub_c) ← segComponentsIf psf c
    let (duration, c, sub_d) ← segDurationIf sdf c
    let (upid_type, c) ← readBits 8 c
    let (upid_length, c) ← readBits 8 c
    let (upid, c) ← readBits (upid_length * 8) c
    let (type_id, c) ← readBits 8 c
    let (segment_num, c) ← readBits 8 c
    let (segments_expected, c) ← readBits 8 c
    let (sub_seg_num, sub_segs_expected, c, sub_s) ←
      segSubSegmentsIf (type_id == 0x34 || type_id == 0x36) c
    let sub := 5 + 1 + sub_c + sub_d + (upid_length + 2) + 3 + sub_s
    pure ({ segmentation_event_id := some event_id
            segmentation_event_cancel_indicator := some cancel
            program_segmentation_flag := some psf
            segmentation_duration_flag := some sdf
            delivery_not_restricted_flag := some dnr
            web_delivery_allowed_flag := web
            no_regional_blackout_flag := noRegional
            archive_allowed_flag := archive
            device_restrictions := deviceRestrictions
            component_count := component_count
            components := components
            segmentation_duration := duration
            segmentation_upid_type := some upid_type
            segmentation_upid_length := some upid_length
            segmentation_upid := some upid
            segmentation_type_id := some type_id
            segment_num := some segment_num
            segments_expected := some segments_expected
            sub_segment_num := sub_seg_num
            sub_segments_expected := sub_segs_expected }, c, sub)

/-- `__parse_splice_descriptors` (source lines 231-311): the
`while length > 0` loop.  The result carries the final value of the
running `length` counter so the loop's bookkeeping can be stated.  The
per-record header (tag, descriptor length, identifier) costs 6 bytes
unconditionally; the tag-2 branch subtracts whatever
`parseSegmentationDescriptor` reports; tags 0x00, 0x01, 0x03 and unknown
tags raise. -/
def parseSpliceDescriptors (c : BitCursor) (length : Int) :
    Except Err (List SCTE35_SegmentationDescriptor × BitCursor × Int) :=
  if _h : length ≤ 0 then
    .ok ([], c, length)
  else do
    let (tag, c) ← readBits 8 c
    let (dlen, c) ← readBits 8 c
    let (ident, c) ← readBits 32 c
    if tag = 0x00 then
      throw (Err.spliceInfoSectionException
        ("avail_descriptor (" ++ toString tag ++ ") not yet supported"))
    else if tag = 0x01 then
      throw (Err.spliceInfoSectionException
        ("DTMF_descriptor (" ++ toString tag ++ ") not yet supported"))
    else if tag = 0x02 then do
      let (d, c, sub) ← parseSegmentationDescriptor c
      let d := { d with splice_descriptor_tag := some tag
                        descriptor_length := some dlen
                        identifier := some ident }
      let (rest, c, lenF) ← parseSpliceDescriptors c (length - 6 - sub)
      pure (d :: rest, c, lenF)
    else if tag = 0x03 then
      throw (Err.spliceInfoSectionException
        ("time_descriptor (" ++ toString tag ++ ") not yet supported"))
    else
      throw (Err.spliceInfoSectionException
        ("unknown splice_descriptor tag (" ++ toString tag ++ ")"))
  termination_by length.toNat
  decreasing_by omega

/-- The fixed header reads of `parse` (source lines 134-148), including
the `table_id` validation performed by the
`SCTE35_SpliceInfoSection.__init__` constructor. -/
def parseHeader (c : BitCursor) : Except Err (HeaderPart × BitCursor) := do
  let (table_id, c) ← readBits 8 c
  if table_id ≠ 0xfc then
    throw (Err.spliceInfoSectionException
      (toString table_id ++ " valid. Should be 0xfc"))
  else
    let (ssi, c) ← readBool c
    let (priv, c) ← readBool c
    let c ← skip 2 c
    let (section_length, c) ← readBits 12 c
    let (protocol_version, c) ← readBits 8 c
    let (encrypted_packet, c) ← readBool c
    let (encryption_algorithm, c) ← readBits 6 c
    let (pts_adjustment, c) ← readBits 33 c
    let (cw_index, c) ← readBits 8 c
    let (tier, c) ← readBits 12 c
    let (splice_command_length, c) ← readBits 12 c
    pure (⟨table_id, ssi, priv, section_length, protocol_version,
           encrypted_packet, encryption_algorithm, pts_adjustment,
           cw_index, tier, splice_command_length⟩, c)

/-- The splice-command dispatch of `parse` (source lines 152-158): `5`
goes to the splice-insert parser, `6` to the time-signal parser, any
other value raises. -/
def dispatchCommand (t : Nat) (c : BitCursor) :
    Except Err (Option SpliceCommand × BitCursor) :=
  if t = 5 then do
    let (osi, c) ← parseSpliceInsert c
    pure (osi.map SpliceCommand.spliceInsert, c)
  else if t = 6 then do
    let (ts, c) ← parseTimeSignal c
    pure (some (SpliceCommand.timeSignal ts), c)
  else
    throw (Err.spliceInfoSectionException
      ("splice_command_type: " ++ toString t ++ " not yet supported"))

/-- The `if splice_descriptor_loop_length > 0` step of `parse` (source
lines 161-166): the descriptor loop runs only for a positive declared
length; otherwise `splice_descriptors` stays `None`. -/
def parseDescriptorsIf (loop_length : Nat) (c : BitCursor) :
    Except Err (Option (List SCTE35_SegmentationDescriptor) × BitCursor) :=
  if loop_length > 0 then do
    let (r, c, _lenF) ← parseSpliceDescriptors c (loop_length : Int)
    pure (some r, c)
  else
    pure (none, c)

/-- `SCTE35_Parser.parse` (source lines 131-168), returning the final
cursor alongside the section so cursor-position claims can be stated. -/
def parseWithCursor (input_bytes : List Nat) :
    Except Err (SCTE35_SpliceInfoSection × BitCursor) := do
  let c := mkCursor input_bytes
  let (h, c) ← parseHeader c
  let (splice_command_type, c) ← readBits 8 c
  let (splice_command, c) ← dispatchCommand splice_command_type c
  let (loop_length, c) ← readBits 16 c
  let (descs, c) ← parseDescriptorsIf loop_length c
  pure ({ toHeaderPart := h
          splice_command_type := splice_command_type
          splice_command := splice_command
          splice_descriptor_loop_length := loop_length
          splice_descriptors := descs }, c)

/-- `SCTE35_Parser.parse`: the decoder's public entry point. -/
def parse (input_bytes : List Nat) : Except Err SCTE35_SpliceInfoSection :=
  (parseWithCursor input_bytes).map Prod.fst

/-! ## Characterization lemmas for the sub-parsers -/

theorem bindOk {α β : Type} {x : Except Err α} {f : α → Except Err β} {b : β}
    (h : (x >>= f) = .ok b) : ∃ a, x = .ok a ∧ f a = .ok b := by
  cases x with
  | error e => simp only [bind, Except.bind] at h; exact Except.noConfusion h
  | ok a =>
      refine ⟨a, rfl, ?_⟩
      simpa only [bind, Except.bind] using h

theorem pureOk {α : Type} {a b : α}
    (h : (pure a : Except Err α) = .ok b) : a = b := by
  simpa only [pure, Except.pure, Except.ok.injEq] using h

theorem parseSpliceTime_spec {c : BitCursor} {st : Splice_Time} {c' : BitCursor}
    (h : parseSpliceTime c = .ok (st, c')) :
    c'.data = c.data ∧
    c'.pos = c.pos + (if st.time_specified_flag then 40 else 8) ∧
    st.time_specified_flag = bitAt c.data c.pos ∧
    (st.pts_time.isSome ↔ st.time_specified_flag = true) ∧
    c'.pos ≤ c.data.length := by
  unfold parseSpliceTime at h
  simp only [bind, Except.bind, pure, Except.pure] at h
  cases hb : readBool c with
  | error e => simp only [hb] at h; exact Except.noConfusion h
  | ok p =>
      obtain ⟨flag, c₁⟩ := p
      simp only [hb] at h
      obtain ⟨hd₁, hp₁, hle₁, hbit⟩ := readBool_ok hb
      cases flag with
      | true =>
          simp only [if_true] at h
          cases hs : skip 6 c₁ with
          | error e => simp only [hs] at h; exact Except.noConfusion h
          | ok c₂ =>
              simp only [hs] at h
              obtain ⟨hd₂, hp₂, hle₂⟩ := skip_ok hs
              cases hr : readBits 33 c₂ with
              | error e => simp only [hr] at h; exact Except.noConfusion h
              | ok q =>
                  obtain ⟨pts, c₃⟩ := q
                  simp only [hr, Except.ok.injEq, Prod.mk.injEq] at h
                  obtain ⟨hd₃, hp₃, hle₃, _⟩ := readBits_ok hr
                  obtain ⟨hst, hc⟩ := h
                  subst hst hc
                  simp_all
      | false =>
          simp only [Bool.false_eq_true, if_false] at h
          cases hs : skip 7 c₁ with
          | error e => simp only [hs] at h; exact Except.noConfusion h
          | ok c₂ =>
              simp only [hs, Except.ok.injEq, Prod.mk.injEq] at h
              obtain ⟨hd₂, hp₂, hle₂⟩ := skip_ok hs
              obtain ⟨hst, hc⟩ := h
              subst hst hc
              simp_all

theorem parseBreakDuration_spec {c : BitCursor} {bd : BreakDuration}
    {c' : BitCursor} (h : parseBreakDuration c = .ok (bd, c')) :
    c'.data = c.data ∧ c'.pos = c.pos + 40 ∧ c'.pos ≤ c.data.length := by
  unfold parseBreakDuration at h
  obtain ⟨⟨ar, c₁⟩, h1, h⟩ := bindOk h
  obtain ⟨c₂, h2, h⟩ := bindOk h
  obtain ⟨⟨dur, c₃⟩, h3, h⟩ := bindOk h
  have hp := pureOk h
  obtain ⟨hd₁, hp₁, hle₁, _⟩ := readBool_ok h1
  obtain ⟨hd₂, hp₂, hle₂⟩ := skip_ok h2
  obtain ⟨hd₃, hp₃, hle₃, _⟩ := readBits_ok h3
  simp only [Prod.mk.injEq] at hp
  obtain ⟨_, hc'⟩ := hp
  subst hc'
  simp_all

theorem parseTimeSignal_spec {c : BitCursor} {ts : SCTE35_TimeSignal}
    {c' : BitCursor} (h : parseTimeSignal c = .ok (ts, c')) :
    c'.data = c.data ∧
    c'.pos = c.pos + (if ts.splice_time.time_specified_flag then 40 else 8) ∧
    c'.pos ≤ c.data.length := by
  unfold parseTimeSignal at h
  obtain ⟨⟨st, c₁⟩, h1, h⟩ := bindOk h
  have hp := pureOk h
  simp only [Prod.mk.injEq] at hp
  obtain ⟨hts, hc⟩ := hp
  subst hts hc
  obtain ⟨hd, hpos, _, _, hle⟩ := parseSpliceTime_spec h1
  exact ⟨hd, hpos, hle⟩

theorem readSpliceTimeIf_spec {cond : Bool} {c : BitCursor}
    {stOpt : Option Splice_Time} {c' : BitCursor}
    (h : readSpliceTimeIf cond c = .ok (stOpt, c')) :
    c'.data = c.data ∧
    (c.pos ≤ c.data.length → c'.pos ≤ c.data.length) ∧
    (stOpt.isSome ↔ cond = true) := by
  unfold readSpliceTimeIf at h
  cases cond with
  | false =>
      simp only [Bool.false_eq_true, if_false] at h
      have hp := pureOk h
      simp only [Prod.mk.injEq] at hp
      obtain ⟨hs, hc⟩ := hp
      subst hc
      subst hs
      exact ⟨rfl, id, by simp⟩
  | true =>
      simp only [if_true] at h
      obtain ⟨⟨st, cX⟩, ha, hb⟩ := bindOk h
      have hp := pureOk hb
      simp only [Prod.mk.injEq] at hp
      obtain ⟨hs, hc⟩ := hp
      subst hc
      subst hs
      obtain ⟨hd, _, _, _, hle⟩ := parseSpliceTime_spec ha
      exact ⟨hd, fun _ => hle, by simp⟩

theorem insertComponentLoop_wf :
    ∀ {count : Nat} {imm : Bool} {c : BitCursor} {comps : List Component}
      {c' : BitCursor},
    insertComponentLoop count imm c = .ok (comps, c') →
    c'.data = c.data ∧ (c.pos ≤ c.data.length → c'.pos ≤ c.data.length) := by
  intro count
  induction count with
  | zero =>
      intro imm c comps c' h
      simp only [insertComponentLoop, Except.ok.injEq, Prod.mk.injEq] at h
      obtain ⟨_, hc⟩ := h
      subst hc
      exact ⟨rfl, id⟩
  | succ n ih =>
      intro imm c comps c' h
      unfold insertComponentLoop at h
      obtain ⟨⟨tag, c₁⟩, h1, h⟩ := bindOk h
      obtain ⟨⟨st, c₂⟩, h2, h⟩ := bindOk h
      obtain ⟨⟨rest, c₃⟩, h3, h⟩ := bindOk h
      have hp := pureOk h
      simp only [Prod.mk.injEq] at hp
      obtain ⟨_, hc⟩ := hp
      subst hc
      obtain ⟨hd₁, hp₁, hle₁, _⟩ := readBits_ok h1
      obtain ⟨hmd, hmp, _⟩ := readSpliceTimeIf_spec h2
      obtain ⟨ihd, ihp⟩ := ih h3
      have h1w : c₁.pos ≤ c₁.data.length := by rw [hd₁]; omega
      have h2w : c₂.pos ≤ c₂.data.length := by rw [hmd]; exact hmp h1w
      have h3w := ihp h2w
      rw [hmd, hd₁] at h3w
      constructor
      · rw [ihd, hmd, hd₁]
      · intro _
        exact h3w

theorem insertComponentsIf_spec {psf imm : Bool} {c : BitCursor}
    {ccOpt : Option Nat} {comps : List Component} {c' : BitCursor}
    (h : insertComponentsIf psf imm c = .ok (ccOpt, comps, c')) :
    c'.data = c.data ∧
    (c.pos ≤ c.data.length → c'.pos ≤ c.data.length) := by
  unfold insertComponentsIf at h
  cases psf with
  | true =>
      simp only [Bool.not_true, Bool.false_eq_true, if_false] at h
      have hp := pureOk h
      simp only [Prod.mk.injEq] at hp
      obtain ⟨_, _, hc⟩ := hp
      subst hc
      exact ⟨rfl, id⟩
  | false =>
      simp only [Bool.not_false, if_true] at h
      obtain ⟨⟨cnt, cX⟩, ha, h⟩ := bindOk h
      obtain ⟨⟨cs, cY⟩, hb, h⟩ := bindOk h
      dsimp only at *
      have hp := pureOk h
      simp only [Prod.mk.injEq] at hp
      obtain ⟨_, _, hc⟩ := hp
      subst hc
      obtain ⟨hdA, hpA, hleA, _⟩ := readBits_ok ha
      obtain ⟨hdB, hqB⟩ := insertComponentLoop_wf hb
      have hw : cX.pos ≤ cX.data.length := by rw [hdA]; omega
      have hleB := hqB hw
      rw [hdA] at hleB
      exact ⟨by rw [hdB, hdA], fun _ => hleB⟩

theorem readBreakDurationIf_spec {dur : Bool} {c : BitCursor}
    {bdOpt : Option BreakDuration} {c' : BitCursor}
    (h : readBreakDurationIf dur c = .ok (bdOpt, c')) :
    c'.data = c.data ∧
    (c.pos ≤ c.data.length → c'.pos ≤ c.data.length) := by
  unfold readBreakDurationIf at h
  cases dur with
  | false =>
      simp only [Bool.false_eq_true, if_false] at h
      have hp := pureOk h
      simp only [Prod.mk.injEq] at hp
      obtain ⟨_, hc⟩ := hp
      subst hc
      exact ⟨rfl, id⟩
  | true =>
      simp only [if_true] at h
      obtain ⟨⟨bd, cX⟩, ha, hb⟩ := bindOk h
      have hp := pureOk hb
      simp only [Prod.mk.injEq] at hp
      obtain ⟨_, hc⟩ := hp
      subst hc
      obtain ⟨hdA, _, hleA⟩ := parseBreakDuration_spec ha
      exact ⟨hdA, fun _ => hleA⟩

theorem parseSpliceInsert_spec {c : BitCursor}
    {osi : Option SCTE35_SpliceInsert} {c' : BitCursor}
    (h : parseSpliceInsert c = .ok (osi, c')) :
    c'.data = c.data ∧ c'.pos ≤ c.data.length ∧
    ∀ si, osi = some si →
      si.splice_event_cancel_indicator = false ∧
      (si.splice_time.isSome ↔
        (si.program_splice_flag = true ∧ si.splice_immediate_flag = false)) ∧
      (si.program_splice_flag = true → si.splice_immediate_flag = true →
        si.splice_time = none) ∧
      si.out_of_network_indicator = bitAt c.data (c.pos + 40) := by
  unfold parseSpliceInsert at h
  obtain ⟨⟨eid, c₁⟩, h1, h⟩ := bindOk h
  obtain ⟨⟨cancel, c₂⟩, h2, h⟩ := bindOk h
  obtain ⟨c₃, h3, h⟩ := bindOk h
  obtain ⟨hd₁, hp₁, hle₁, _⟩ := readBits_ok h1
  obtain ⟨hd₂, hp₂, hle₂, _⟩ := readBool_ok h2
  obtain ⟨hd₃, hp₃, hle₃⟩ := skip_ok h3
  cases cancel with
  | true =>
      simp only [if_true] at h
      dsimp only at *
      have hp := pureOk h
      simp only [Prod.mk.injEq] at hp
      obtain ⟨ho, hc⟩ := hp
      subst hc
      refine ⟨by rw [hd₃, hd₂, hd₁], ?_, ?_⟩
      · have hx : c₂.data = c.data := by rw [hd₂, hd₁]
        rw [hx] at hle₃
        omega
      intro si hsi
      rw [← ho] at hsi
      exact Option.noConfusion hsi
  | false =>
      simp only [Bool.false_eq_true, if_false] at h
      obtain ⟨⟨out, c₄⟩, h4, h⟩ := bindOk h
      obtain ⟨⟨psf, c₅⟩, h5, h⟩ := bindOk h
      obtain ⟨⟨dur, c₆⟩, h6, h⟩ := bindOk h
      obtain ⟨⟨imm, c₇⟩, h7, h⟩ := bindOk h
      obtain ⟨c₈, h8, h⟩ := bindOk h
      obtain ⟨⟨stOpt, c₉⟩, h9, h⟩ := bindOk h
      obtain ⟨⟨ccOpt, comps, c₁₀⟩, h10, h⟩ := bindOk h
      obtain ⟨⟨bdOpt, c₁₁⟩, h11, h⟩ := bindOk h
      obtain ⟨⟨upid, c₁₂⟩, h12, h⟩ := bindOk h
      obtain ⟨⟨an, c₁₃⟩, h13, h⟩ := bindOk h
      obtain ⟨⟨ae, c₁₄⟩, h14, h⟩ := bindOk h
      dsimp only at *
      have hp := pureOk h
      simp only [Prod.mk.injEq] at hp
      obtain ⟨ho, hc⟩ := hp
      subst hc
      obtain ⟨hd₄, hp₄, hle₄, hbit₄⟩ := readBool_ok h4
      obtain ⟨hd₅, hp₅, hle₅, _⟩ := readBool_ok h5
      obtain ⟨hd₆, hp₆, hle₆, _⟩ := readBool_ok h6
      obtain ⟨hd₇, hp₇, hle₇, _⟩ := readBool_ok h7
      obtain ⟨hd₈, hp₈, hle₈⟩ := skip_ok h8
      obtain ⟨hd₉, hq₉, hiff⟩ := readSpliceTimeIf_spec h9
      obtain ⟨hd₁₀, hq₁₀⟩ := insertComponentsIf_spec h10
      obtain ⟨hd₁₁, hq₁₁⟩ := readBreakDurationIf_spec h11
      obtain ⟨hd₁₂, hp₁₂, hle₁₂, _⟩ := readBits_ok h12
      obtain ⟨hd₁₃, hp₁₃, hle₁₃, _⟩ := readBits_ok h13
      obtain ⟨hd₁₄, hp₁₄, hle₁₄, _⟩ := readBits_ok h14
      have hdata : c₁₄.data = c.data := by
        rw [hd₁₄, hd₁₃, hd₁₂, hd₁₁, hd₁₀, hd₉, hd₈, hd₇, hd₆, hd₅, hd₄,
          hd₃, hd₂, hd₁]
      refine ⟨hdata, ?_, ?_⟩
      · have hx : c₁₃.data = c.data := by rw [← hd₁₄, hdata]
        rw [hx] at hle₁₄
        omega
      · intro si hsi
        rw [← ho] at hsi
        cases hsi
        have hiff' : stOpt.isSome ↔ (psf = true ∧ imm = false) := by
          rw [hiff]
          cases psf <;> cases imm <;> simp
        refine ⟨rfl, hiff', ?_, ?_⟩
        · intro hpsf himm
          dsimp only at hpsf himm ⊢
          cases hstv : stOpt with
          | none => rfl
          | some v =>
              exfalso
              have hx := hiff'.mp (by rw [hstv]; rfl)
              rw [hx.2] at himm
              exact Bool.noConfusion himm
        · rw [hbit₄]
          have hpos : c₃.pos = c.pos + 40 := by omega
          rw [hpos, hd₃, hd₂, hd₁]

theorem segComponentLoop_never_ok {count : Nat} {c : BitCursor}
    {r : List SegComponent × BitCursor} (hc : 1 ≤ count) :
    segComponentLoop count c ≠ .ok r := by
  intro h
  cases count with
  | zero => omega
  | succ n =>
      unfold segComponentLoop at h
      obtain ⟨⟨tag, c₁⟩, h1, h⟩ := bindOk h
      dsimp only at h
      simp only [throw, throwThe, MonadExceptOf.throw] at h
      exact Except.noConfusion h

theorem segComponentLoop_ok {count : Nat} {c : BitCursor}
    {comps : List SegComponent} {c' : BitCursor}
    (h : segComponentLoop count c = .ok (comps, c')) :
    count = 0 ∧ comps = [] ∧ c' = c := by
  cases count with
  | zero =>
      simp only [segComponentLoop, Except.ok.injEq, Prod.mk.injEq] at h
      obtain ⟨h1, h2⟩ := h
      exact ⟨rfl, h1.symm, h2.symm⟩
  | succ n => exact absurd h (segComponentLoop_never_ok (by omega))

theorem segRestrictionFlags_spec {dnr : Bool} {c : BitCursor}
    {w nr ar : Option Bool} {dr : Option Nat} {c' : BitCursor}
    (h : segRestrictionFlags dnr c = .ok (w, nr, ar, dr, c')) :
    c'.data = c.data ∧ c'.pos ≤ c.data.length := by
  unfold segRestrictionFlags at h
  cases dnr with
  | false =>
      simp only [Bool.not_false, if_true] at h
      obtain ⟨⟨a, c₁⟩, h1, h⟩ := bindOk h
      obtain ⟨⟨b, c₂⟩, h2, h⟩ := bindOk h
      obtain ⟨⟨d, c₃⟩, h3, h⟩ := bindOk h
      obtain ⟨⟨e, c₄⟩, h4, h⟩ := bindOk h
      dsimp only at *
      have hp := pureOk h
      simp only [Prod.mk.injEq] at hp
      obtain ⟨_, _, _, _, hc⟩ := hp
      subst hc
      obtain ⟨hd₁, hp₁, hle₁, _⟩ := readBool_ok h1
      obtain ⟨hd₂, hp₂, hle₂, _⟩ := readBool_ok h2
      obtain ⟨hd₃, hp₃, hle₃, _⟩ := readBool_ok h3
      obtain ⟨hd₄, hp₄, hle₄, _⟩ := readBits_ok h4
      constructor
      · rw [hd₄, hd₃, hd₂, hd₁]
      · have hx : c₃.data = c.data := by rw [hd₃, hd₂, hd₁]
        rw [hx] at hle₄
        omega
  | true =>
      simp only [Bool.not_true, Bool.false_eq_true, if_false] at h
      obtain ⟨c₁, h1, h⟩ := bindOk h
      have hp := pureOk h
      simp only [Prod.mk.injEq] at hp
      obtain ⟨_, _, _, _, hc⟩ := hp
      subst hc
      obtain ⟨hd₁, hp₁, hle₁⟩ := skip_ok h1
      exact ⟨hd₁, by omega⟩

theorem segComponentsIf_spec {psf : Bool} {c : BitCursor}
    {ccOpt : Option Nat} {comps : Option (List SegComponent)}
    {c' : BitCursor} {sub : Nat}
    (h : segComponentsIf psf c = .ok (ccOpt, comps, c', sub)) :
    c'.data = c.data ∧
    (c.pos ≤ c.data.length → c'.pos ≤ c.data.length) ∧
    (comps = none ∨ comps = some []) := by
  unfold segComponentsIf at h
  cases psf with
  | true =>
      simp only [Bool.not_true, Bool.false_eq_true, if_false] at h
      have hp := pureOk h
      simp only [Prod.mk.injEq] at hp
      obtain ⟨_, hcm, hc, _⟩ := hp
      subst hc
      exact ⟨rfl, id, Or.inl hcm.symm⟩
  | false =>
      simp only [Bool.not_false, if_true] at h
      obtain ⟨⟨cnt, cX⟩, ha, h⟩ := bindOk h
      obtain ⟨⟨cs, cY⟩, hb, h⟩ := bindOk h
      dsimp only at *
      have hp := pureOk h
      simp only [Prod.mk.injEq] at hp
      obtain ⟨_, hcm, hc, _⟩ := hp
      subst hc
      obtain ⟨hdA, hpA, hleA, _⟩ := readBits_ok ha
      obtain ⟨_, hcs, hcy⟩ := segComponentLoop_ok hb
      subst hcy
      refine ⟨hdA, fun _ => by omega, Or.inr ?_⟩
      rw [← hcm, hcs]

theorem segDurationIf_spec {sdf : Bool} {c : BitCursor} {d : Option Nat}
    {c' : BitCursor} {sub : Nat}
    (h : segDurationIf sdf c = .ok (d, c', sub)) :
    c'.data = c.data ∧
    (c.pos ≤ c.data.length → c'.pos ≤ c.data.length) := by
  unfold segDurationIf at h
  cases sdf with
  | false =>
      simp only [Bool.false_eq_true, if_false] at h
      have hp := pureOk h
      simp only [Prod.mk.injEq] at hp
      obtain ⟨_, hc, _⟩ := hp
      subst hc
      exact ⟨rfl, id⟩
  | true =>
      simp only [if_true] at h
      obtain ⟨⟨v, cX⟩, ha, h⟩ := bindOk h
      dsimp only at *
      have hp := pureOk h
      simp only [Prod.mk.injEq] at hp
      obtain ⟨_, hc, _⟩ := hp
      subst hc
      obtain ⟨hdA, hpA, hleA, _⟩ := readBits_ok ha
      exact ⟨hdA, fun _ => by omega⟩

theorem segSubSegmentsIf_spec {cond : Bool} {c : BitCursor}
    {ssn sse : Option Nat} {c' : BitCursor} {sub : Nat}
    (h : segSubSegmentsIf cond c = .ok (ssn, sse, c', sub)) :
    c'.data = c.data ∧
    (c.pos ≤ c.data.length → c'.pos ≤ c.data.length) := by
  unfold segSubSegmentsIf at h
  cases cond with
  | false =>
      simp only [Bool.false_eq_true, if_false] at h
      have hp := pureOk h
      simp only [Prod.mk.injEq] at hp
      obtain ⟨_, _, hc, _⟩ := hp
      subst hc
      exact ⟨rfl, id⟩
  | true =>
      simp only [if_true] at h
      obtain ⟨⟨a, cX⟩, ha, h⟩ := bindOk h
      obtain ⟨⟨b, cY⟩, hb, h⟩ := bindOk h
      dsimp only at *
      have hp := pureOk h
      simp only [Prod.mk.injEq] at hp
      obtain ⟨_, _, hc, _⟩ := hp
      subst hc
      obtain ⟨hdA, hpA, hleA, _⟩ := readBits_ok ha
      obtain ⟨hdB, hpB, hleB, _⟩ := readBits_ok hb
      refine ⟨by rw [hdB, hdA], fun _ => ?_⟩
      rw [hdA] at hleB
      omega

theorem parseSegmentationDescriptor_spec {c : BitCursor}
    {d : SCTE35_SegmentationDescriptor} {c' : BitCursor} {sub : Nat}
    (h : parseSegmentationDescriptor c = .ok (d, c', sub)) :
    c'.data = c.data ∧
    (c.pos ≤ c.data.length → c'.pos ≤ c.data.length) ∧
    (d.components = none ∨ d.components = some []) := by
  unfold parseSegmentationDescriptor at h
  obtain ⟨⟨eid, c₁⟩, h1, h⟩ := bindOk h
  obtain ⟨⟨cancel, c₂⟩, h2, h⟩ := bindOk h
  obtain ⟨c₃, h3, h⟩ := bindOk h
  obtain ⟨hd₁, hp₁, hle₁, _⟩ := readBits_ok h1
  obtain ⟨hd₂, hp₂, hle₂, _⟩ := readBool_ok h2
  obtain ⟨hd₃, hp₃, hle₃⟩ := skip_ok h3
  cases cancel with
  | true =>
      simp only [if_true] at h
      dsimp only at *
      have hp := pureOk h
      simp only [Prod.mk.injEq] at hp
      obtain ⟨hdd, hc, _⟩ := hp
      subst hc
      refine ⟨by rw [hd₃, hd₂, hd₁], fun _ => ?_, ?_⟩
      · have hx : c₂.data = c.data := by rw [hd₂, hd₁]
        rw [hx] at hle₃
        omega
      · rw [← hdd]
        exact Or.inl rfl
  | false =>
      simp only [Bool.false_eq_true, if_false] at h
      obtain ⟨⟨psf, c₄⟩, h4, h⟩ := bindOk h
      obtain ⟨⟨sdf, c₅⟩, h5, h⟩ := bindOk h
      obtain ⟨⟨dnr, c₆⟩, h6, h⟩ := bindOk h
      obtain ⟨⟨w, nr, ar, dr, c₇⟩, h7, h⟩ := bindOk h
      obtain ⟨⟨ccOpt, comps, c₈, subc⟩, h8, h⟩ := bindOk h
      obtain ⟨⟨dOpt, c₉, subd⟩, h9, h⟩ := bindOk h
      obtain ⟨⟨ut, c₁₀⟩, h10, h⟩ := bindOk h
      obtain ⟨⟨ul, c₁₁⟩, h11, h⟩ := bindOk h
      obtain ⟨⟨up, c₁₂⟩, h12, h⟩ := bindOk h
      obtain ⟨⟨ti, c₁₃⟩, h13, h⟩ := bindOk h
      obtain ⟨⟨sn, c₁₄⟩, h14, h⟩ := bindOk h
      obtain ⟨⟨se, c₁₅⟩, h15, h⟩ := bindOk h
      obtain ⟨⟨ssn, sse, c₁₆, subs⟩, h16, h⟩ := bindOk h
      dsimp only at *
      have hp := pureOk h
      simp only [Prod.mk.injEq] at hp
      obtain ⟨hdd, hc, _⟩ := hp
      subst hc
      obtain ⟨hd₄, hp₄, hle₄, _⟩ := readBool_ok h4
      obtain ⟨hd₅, hp₅, hle₅, _⟩ := readBool_ok h5
      obtain ⟨hd₆, hp₆, hle₆, _⟩ := readBool_ok h6
      obtain ⟨hd₇, hle₇⟩ := segRestrictionFlags_spec h7
      obtain ⟨hd₈, hq₈, hshape⟩ := segComponentsIf_spec h8
      obtain ⟨hd₉, hq₉⟩ := segDurationIf_spec h9
      obtain ⟨hd₁₀, hp₁₀, hle₁₀, _⟩ := readBits_ok h10
      obtain ⟨hd₁₁, hp₁₁, hle₁₁, _⟩ := readBits_ok h11
      obtain ⟨hd₁₂, hp₁₂, hle₁₂, _⟩ := readBits_ok h12
      obtain ⟨hd₁₃, hp₁₃, hle₁₃, _⟩ := readBits_ok h13
      obtain ⟨hd₁₄, hp₁₄, hle₁₄, _⟩ := readBits_ok h14
      obtain ⟨hd₁₅, hp₁₅, hle₁₅, _⟩ := readBits_ok h15
      obtain ⟨hd₁₆, hq₁₆⟩ := segSubSegmentsIf_spec h16
      have hdata : c₁₆.data = c.data := by
        rw [hd₁₆, hd₁₅, hd₁₄, hd₁₃, hd₁₂, hd₁₁, hd₁₀, hd₉, hd₈, hd₇, hd₆,
          hd₅, hd₄, hd₃, hd₂, hd₁]
      refine ⟨hdata, fun _ => ?_, ?_⟩
      · have h15w : c₁₅.pos ≤ c₁₅.data.length := by
          have hx : c₁₄.data = c₁₅.data := by rw [hd₁₅]
          rw [hx] at hle₁₅
          omega
        have h16w := hq₁₆ h15w
        have hx : c₁₅.data = c.data := by rw [← hd₁₆, hdata]
        rw [hx] at h16w
        exact h16w
      · rw [← hdd]
        exact hshape

theorem parseSpliceDescriptors_spec {c : BitCursor} {L : Int} :
    ∀ {r : List SCTE35_SegmentationDescriptor} {c' : BitCursor} {lenF : Int},
    parseSpliceDescriptors c L = .ok (r, c', lenF) →
    c'.data = c.data ∧ (c.pos ≤ c.data.length → c'.pos ≤ c.data.length) ∧
    lenF ≤ 0 ∧
    (∀ d ∈ r, d.components = none ∨ d.components = some []) := by
  induction c, L using parseSpliceDescriptors.induct with
  | case1 c L hL =>
      intro r c' lenF h
      unfold parseSpliceDescriptors at h
      rw [dif_pos hL] at h
      simp only [Except.ok.injEq, Prod.mk.injEq] at h
      obtain ⟨hr, hc, hl⟩ := h
      subst hc
      subst hl
      refine ⟨rfl, id, hL, ?_⟩
      intro d hd
      rw [← hr] at hd
      exact absurd hd (List.not_mem_nil d)
  | case2 c L hL ih =>
      intro r c' lenF h
      unfold parseSpliceDescriptors at h
      rw [dif_neg hL] at h
      obtain ⟨⟨tag, c₁⟩, h1, h⟩ := bindOk h
      obtain ⟨⟨dlen, c₂⟩, h2, h⟩ := bindOk h
      obtain ⟨⟨ident, c₃⟩, h3, h⟩ := bindOk h
      dsimp only at *
      obtain ⟨hd₁, hp₁, hle₁, _⟩ := readBits_ok h1
      obtain ⟨hd₂, hp₂, hle₂, _⟩ := readBits_ok h2
      obtain ⟨hd₃, hp₃, hle₃, _⟩ := readBits_ok h3
      by_cases ht0 : tag = 0x00
      · rw [if_pos ht0] at h
        simp only [throw, throwThe, MonadExceptOf.throw] at h
        exact Except.noConfusion h
      rw [if_neg ht0] at h
      by_cases ht1 : tag = 0x01
      · rw [if_pos ht1] at h
        simp only [throw, throwThe, MonadExceptOf.throw] at h
        exact Except.noConfusion h
      rw [if_neg ht1] at h
      by_cases ht2 : tag = 0x02
      · rw [if_pos ht2] at h
        obtain ⟨⟨d0, c₄, sub⟩, h4, h⟩ := bindOk h
        obtain ⟨⟨rest, c₅, lf⟩, h5, h⟩ := bindOk h
        dsimp only at *
        have hp := pureOk h
        simp only [Prod.mk.injEq] at hp
        obtain ⟨hr, hc, hl⟩ := hp
        subst hc
        subst hl
        obtain ⟨hd₄, hq₄, hshape⟩ := parseSegmentationDescriptor_spec h4
        obtain ⟨hd₅, hq₅, hlf, hrest⟩ := ih c₄ sub h5
        have hdata : c₅.data = c.data := by
          rw [hd₅, hd₄, hd₃, hd₂, hd₁]
        refine ⟨hdata, fun _ => ?_, hlf, ?_⟩
        · have h3w : c₃.pos ≤ c₃.data.length := by
            have hx : c₂.data = c₃.data := by rw [hd₃]
            rw [hx] at hle₃
            omega
          have h4w := hq₄ h3w
          have h5w : c₄.pos ≤ c₄.data.length := by rw [hd₄]; exact h4w
          have h5x := hq₅ h5w
          have hx : c₄.data = c.data := by rw [hd₄, hd₃, hd₂, hd₁]
          rw [hx] at h5x
          exact h5x
        · intro d hd
          rw [← hr] at hd
          cases hd with
          | head => exact hshape
          | tail _ hmem => exact hrest d hmem
      rw [if_neg ht2] at h
      by_cases ht3 : tag = 0x03
      · rw [if_pos ht3] at h
        simp only [throw, throwThe, MonadExceptOf.throw] at h
        exact Except.noConfusion h
      rw [if_neg ht3] at h
      simp only [throw, throwThe, MonadExceptOf.throw] at h
      exact Except.noConfusion h

theorem parseHeader_spec {c : BitCursor} {hd : HeaderPart} {c' : BitCursor}
    (hk : parseHeader c = .ok (hd, c')) :
    c'.data = c.data ∧ c'.pos = c.pos + 104 ∧ c'.pos ≤ c.data.length ∧
    hd.table_id = 0xfc ∧
    hd.table_id = uintAt c.data c.pos 8 ∧
    hd.section_syntax_indicator = bitAt c.data (c.pos + 8) ∧
    hd.private_indicator = bitAt c.data (c.pos + 9) ∧
    hd.section_length = uintAt c.data (c.pos + 12) 12 ∧
    hd.protocol_version = uintAt c.data (c.pos + 24) 8 ∧
    hd.encrypted_packet = bitAt c.data (c.pos + 32) ∧
    hd.encryption_algorithm = uintAt c.data (c.pos + 33) 6 ∧
    hd.pts_adjustment = uintAt c.data (c.pos + 39) 33 ∧
    hd.cw_index = uintAt c.data (c.pos + 72) 8 ∧
    hd.tier = uintAt c.data (c.pos + 80) 12 ∧
    hd.splice_command_length = uintAt c.data (c.pos + 92) 12 := by
  unfold parseHeader at hk
  obtain ⟨⟨tid, c₁⟩, h1, hk⟩ := bindOk hk
  dsimp only at *
  obtain ⟨hd₁, hp₁, hle₁, hv₁⟩ := readBits_ok h1
  by_cases hfc : tid = 0xfc
  case neg =>
      rw [if_pos hfc] at hk
      simp only [throw, throwThe, MonadExceptOf.throw] at hk
      exact Except.noConfusion hk
  rw [if_neg (fun hn => hn hfc)] at hk
  obtain ⟨⟨ssi, c₂⟩, h2, hk⟩ := bindOk hk
  obtain ⟨⟨priv, c₃⟩, h3, hk⟩ := bindOk hk
  obtain ⟨c₄, h4, hk⟩ := bindOk hk
  obtain ⟨⟨slen, c₅⟩, h5, hk⟩ := bindOk hk
  obtain ⟨⟨pver, c₆⟩, h6, hk⟩ := bindOk hk
  obtain ⟨⟨enc, c₇⟩, h7, hk⟩ := bindOk hk
  obtain ⟨⟨alg, c₈⟩, h8, hk⟩ := bindOk hk
  obtain ⟨⟨pts, c₉⟩, h9, hk⟩ := bindOk hk
  obtain ⟨⟨cw, c₁₀⟩, h10, hk⟩ := bindOk hk
  obtain ⟨⟨tier, c₁₁⟩, h11, hk⟩ := bindOk hk
  obtain ⟨⟨clen, c₁₂⟩, h12, hk⟩ := bindOk hk
  dsimp only at *
  have hp := pureOk hk
  simp only [Prod.mk.injEq] at hp
  obtain ⟨hrec, hc⟩ := hp
  subst hc
  subst hrec
  obtain ⟨hd₂, hp₂, hle₂, hv₂⟩ := readBool_ok h2
  obtain ⟨hd₃, hp₃, hle₃, hv₃⟩ := readBool_ok h3
  obtain ⟨hd₄, hp₄, hle₄⟩ := skip_ok h4
  obtain ⟨hd₅, hp₅, hle₅, hv₅⟩ := readBits_ok h5
  obtain ⟨hd₆, hp₆, hle₆, hv₆⟩ := readBits_ok h6
  obtain ⟨hd₇, hp₇, hle₇, hv₇⟩ := readBool_ok h7
  obtain ⟨hd₈, hp₈, hle₈, hv₈⟩ := readBits_ok h8
  obtain ⟨hd₉, hp₉, hle₉, hv₉⟩ := readBits_ok h9
  obtain ⟨hd₁₀, hp₁₀, hle₁₀, hv₁₀⟩ := readBits_ok h10
  obtain ⟨hd₁₁, hp₁₁, hle₁₁, hv₁₁⟩ := readBits_ok h11
  obtain ⟨hd₁₂, hp₁₂, hle₁₂, hv₁₂⟩ := readBits_ok h12
  have e1 : c₁.data = c.data := hd₁
  have e2 : c₂.data = c.data := by rw [hd₂, e1]
  have e3 : c₃.data = c.data := by rw [hd₃, e2]
  have e4 : c₄.data = c.data := by rw [hd₄, e3]
  have e5 : c₅.data = c.data := by rw [hd₅, e4]
  have e6 : c₆.data = c.data := by rw [hd₆, e5]
  have e7 : c₇.data = c.data := by rw [hd₇, e6]
  have e8 : c₈.data = c.data := by rw [hd₈, e7]
  have e9 : c₉.data = c.data := by rw [hd₉, e8]
  have e10 : c₁₀.data = c.data := by rw [hd₁₀, e9]
  have e11 : c₁₁.data = c.data := by rw [hd₁₁, e10]
  have e12 : c₁₂.data = c.data := by rw [hd₁₂, e11]
  have q1 : c₁.pos = c.pos + 8 := by omega
  have q2 : c₂.pos = c.pos + 9 := by omega
  have q3 : c₃.pos = c.pos + 10 := by omega
  have q4 : c₄.pos = c.pos + 12 := by omega
  have q5 : c₅.pos = c.pos + 24 := by omega
  have q6 : c₆.pos = c.pos + 32 := by omega
  have q7 : c₇.pos = c.pos + 33 := by omega
  have q8 : c₈.pos = c.pos + 39 := by omega
  have q9 : c₉.pos = c.pos + 72 := by omega
  have q10 : c₁₀.pos = c.pos + 80 := by omega
  have q11 : c₁₁.pos = c.pos + 92 := by omega
  have q12 : c₁₂.pos = c.pos + 104 := by omega
  refine ⟨e12, q12, ?_, hfc, ?_, ?_, ?_, ?_, ?_, ?_, ?_, ?_, ?_, ?_, ?_⟩
  · rw [e11] at hle₁₂
    omega
  · rw [hv₁]
  · rw [hv₂, e1, q1]
  · rw [hv₃, e2, q2]
  · rw [hv₅, e4, q4]
  · rw [hv₆, e5, q5]
  · rw [hv₇, e6, q6]
  · rw [hv₈, e7, q7]
  · rw [hv₉, e8, q8]
  · rw [hv₁₀, e9, q9]
  · rw [hv₁₁, e10, q10]
  · rw [hv₁₂, e11, q11]

theorem parseHeader_err {c : BitCursor} {t : Nat} {c₁ : BitCursor}
    (h1 : readBits 8 c = .ok (t, c₁)) (hne : t ≠ 0xfc) :
    parseHeader c = .error (.spliceInfoSectionException
      (toString t ++ " valid. Should be 0xfc")) := by
  unfold parseHeader
  simp only [h1, bind, Except.bind]
  rw [if_pos hne]
  simp only [throw, throwThe, MonadExceptOf.throw]

theorem dispatchCommand_err {t : Nat} {c : BitCursor}
    (h5 : t ≠ 5) (h6 : t ≠ 6) :
    dispatchCommand t c = .error (.spliceInfoSectionException
      ("splice_command_type: " ++ toString t ++ " not yet supported")) := by
  unfold dispatchCommand
  rw [if_neg h5, if_neg h6]
  simp only [throw, throwThe, MonadExceptOf.throw]

theorem dispatchCommand_spec {t : Nat} {c : BitCursor}
    {cmd : Option SpliceCommand} {c' : BitCursor}
    (h : dispatchCommand t c = .ok (cmd, c')) :
    c'.data = c.data ∧
    (c.pos ≤ c.data.length → c'.pos ≤ c.data.length) ∧
    (t = 5 ∨ t = 6) ∧
    (t = 5 → (cmd = none ∨ ∃ si, cmd = some (.spliceInsert si))) ∧
    (t = 6 → ∃ ts, cmd = some (.timeSignal ts)) := by
  unfold dispatchCommand at h
  by_cases ht5 : t = 5
  · rw [if_pos ht5] at h
    obtain ⟨⟨osi, cX⟩, ha, h⟩ := bindOk h
    dsimp only at *
    have hp := pureOk h
    simp only [Prod.mk.injEq] at hp
    obtain ⟨hcmd, hc⟩ := hp
    subst hc
    obtain ⟨hdA, hleA, _⟩ := parseSpliceInsert_spec ha
    refine ⟨hdA, fun _ => hleA, Or.inl ht5, fun _ => ?_, fun ht6 => ?_⟩
    · cases osi with
      | none => exact Or.inl (by rw [← hcmd]; rfl)
      | some si => exact Or.inr ⟨si, by rw [← hcmd]; rfl⟩
    · exact absurd ht6 (by omega)
  rw [if_neg ht5] at h
  by_cases ht6 : t = 6
  · rw [if_pos ht6] at h
    obtain ⟨⟨ts, cX⟩, ha, h⟩ := bindOk h
    dsimp only at *
    have hp := pureOk h
    simp only [Prod.mk.injEq] at hp
    obtain ⟨hcmd, hc⟩ := hp
    subst hc
    obtain ⟨hdA, _, hleA⟩ := parseTimeSignal_spec ha
    exact ⟨hdA, fun _ => hleA, Or.inr ht6, fun ht5' => absurd ht5' ht5,
      fun _ => ⟨ts, hcmd.symm⟩⟩
  rw [if_neg ht6] at h
  simp only [throw, throwThe, MonadExceptOf.throw] at h
  exact Except.noConfusion h

theorem parseDescriptorsIf_spec {L : Nat} {c : BitCursor}
    {descs : Option (List SCTE35_SegmentationDescriptor)} {c' : BitCursor}
    (h : parseDescriptorsIf L c = .ok (descs, c')) :
    c'.data = c.data ∧
    (c.pos ≤ c.data.length → c'.pos ≤ c.data.length) ∧
    (∀ l, descs = some l →
      ∀ d ∈ l, d.components = none ∨ d.components = some []) := by
  unfold parseDescriptorsIf at h
  by_cases hL : L > 0
  · rw [if_pos hL] at h
    obtain ⟨⟨r, cX, lf⟩, ha, h⟩ := bindOk h
    dsimp only at *
    have hp := pureOk h
    simp only [Prod.mk.injEq] at hp
    obtain ⟨hds, hc⟩ := hp
    subst hc
    obtain ⟨hdA, hqA, _, hshape⟩ := parseSpliceDescriptors_spec ha
    refine ⟨hdA, hqA, ?_⟩
    intro l hl d hdmem
    rw [← hds] at hl
    simp only [Option.some.injEq] at hl
    subst hl
    exact hshape d hdmem
  · rw [if_neg hL] at h
    have hp := pureOk h
    simp only [Prod.mk.injEq] at hp
    obtain ⟨hds, hc⟩ := hp
    subst hc
    refine ⟨rfl, id, ?_⟩
    intro l hl
    rw [← hds] at hl
    exact Option.noConfusion hl

theorem parseWithCursor_spec {buf : List Nat}
    {s : SCTE35_SpliceInfoSection} {c' : BitCursor}
    (h : parseWithCursor buf = .ok (s, c')) :
    c'.data = bytesToBits buf ∧ c'.pos ≤ (bytesToBits buf).length ∧
    (s.splice_command_type = 5 ∨ s.splice_command_type = 6) ∧
    (s.splice_command_type = 5 →
      (s.splice_command = none ∨
        ∃ si, s.splice_command = some (.spliceInsert si))) ∧
    (s.splice_command_type = 6 →
      ∃ ts, s.splice_command = some (.timeSignal ts)) ∧
    (∀ l, s.splice_descriptors = some l →
      ∀ d ∈ l, d.components = none ∨ d.components = some []) := by
  unfold parseWithCursor at h
  obtain ⟨⟨hdr, c₁⟩, h1, h⟩ := bindOk h
  obtain ⟨⟨sct, c₂⟩, h2, h⟩ := bindOk h
  obtain ⟨⟨cmd, c₃⟩, h3, h⟩ := bindOk h
  obtain ⟨⟨llen, c₄⟩, h4, h⟩ := bindOk h
  obtain ⟨⟨descs, c₅⟩, h5, h⟩ := bindOk h
  dsimp only at *
  have hp := pureOk h
  simp only [Prod.mk.injEq] at hp
  obtain ⟨hrec, hc⟩ := hp
  subst hc
  subst hrec
  obtain ⟨hd₁, hpos₁, hle₁, _⟩ := parseHeader_spec h1
  obtain ⟨hd₂, hp₂, hle₂, _⟩ := readBits_ok h2
  obtain ⟨hd₃, hq₃, _, hc5, hc6⟩ := dispatchCommand_spec h3
  obtain ⟨hd₄, hp₄, hle₄, _⟩ := readBits_ok h4
  obtain ⟨hd₅, hq₅, hshape⟩ := parseDescriptorsIf_spec h5
  have hmk : (mkCursor buf).data = bytesToBits buf := rfl
  have e1 : c₁.data = bytesToBits buf := by rw [hd₁, hmk]
  have e2 : c₂.data = bytesToBits buf := by rw [hd₂, e1]
  have e3 : c₃.data = bytesToBits buf := by rw [hd₃, e2]
  have e4 : c₄.data = bytesToBits buf := by rw [hd₄, e3]
  have e5 : c₅.data = bytesToBits buf := by rw [hd₅, e4]
  refine ⟨e5, ?_, ?_⟩
  · have w2 : c₂.pos ≤ c₂.data.length := by rw [hd₂]; omega
    have w3 := hq₃ w2
    have w4 : c₄.pos ≤ c₄.data.length := by
      have hx : c₃.data = c₄.data := by rw [hd₄]
      rw [hx] at hle₄
      omega
    have w5 := hq₅ w4
    rw [e4] at w5
    exact w5
  · dsimp only
    exact ⟨hd₃.symm ▸ dispatchCommand_spec h3 |>.2.2.1, hc5, hc6, hshape⟩

set_option maxRecDepth 4096 in
theorem bitsToNat_byteToBits_fin :
    ∀ b : Fin 256, bitsToNat (byteToBits b.val) = b.val := by decide

theorem bitsToNat_byteToBits {b : Nat} (hb : b < 256) :
    bitsToNat (byteToBits b) = b :=
  bitsToNat_byteToBits_fin ⟨b, hb⟩

theorem readBits8_head (b : Nat) (rest : List Nat) (hb : b < 256) :
    readBits 8 (mkCursor (b :: rest)) =
      .ok (b, ⟨bytesToBits (b :: rest), 8⟩) := by
  unfold readBits mkCursor
  rw [if_pos]
  · have htake : (bytesToBits (b :: rest)).take 8 = byteToBits b := by
      rw [bytesToBits_cons]
      rw [show (8 : Nat) = (byteToBits b).length from (byteToBits_length b).symm]
      exact List.take_left _ _
    simp only [List.drop_zero, Nat.zero_add]
    rw [htake, bitsToNat_byteToBits hb]
  · simp only [Nat.zero_add, bytesToBits_length, List.length_cons]
    omega

theorem parse_invalid_table_id {b : Nat} (rest : List Nat)
    (hb : b < 256) (hne : b ≠ 0xfc) :
    parse (b :: rest) = .error (.spliceInfoSectionException
      (toString b ++ " valid. Should be 0xfc")) := by
  have hh := parseHeader_err (readBits8_head b rest hb) hne
  unfold parse parseWithCursor
  simp only [hh, bind, Except.bind, Except.map]

theorem parse_unsupported_command {buf : List Nat} {hdr : HeaderPart}
    {c₁ : BitCursor} {t : Nat} {c₂ : BitCursor}
    (hH : parseHeader (mkCursor buf) = .ok (hdr, c₁))
    (hT : readBits 8 c₁ = .ok (t, c₂)) (h5 : t ≠ 5) (h6 : t ≠ 6) :
    parse buf = .error (.spliceInfoSectionException
      ("splice_command_type: " ++ toString t ++ " not yet supported")) := by
  unfold parse parseWithCursor
  simp only [hH, hT, bind, Except.bind]
  rw [dispatchCommand_err h5 h6]
  simp only [Except.map]

/-- One unfolding of the descriptor loop: exit when the counter is not
positive. -/
theorem parseSpliceDescriptors_exit {c : BitCursor} {L : Int} (hL : L ≤ 0) :
    parseSpliceDescriptors c L = .ok ([], c, L) := by
  unfold parseSpliceDescriptors
  rw [dif_pos hL]

/-- One unfolding of the descriptor loop through the tag-2 branch. -/
theorem parseSpliceDescriptors_tag2 {c : BitCursor} {L : Int} (hL : ¬ L ≤ 0)
    {dl ident : Nat} {c₁ c₂ c₃ c₄ c₅ : BitCursor}
    {d : SCTE35_SegmentationDescriptor} {sub : Nat}
    {rest : List SCTE35_SegmentationDescriptor} {lf : Int}
    (h1 : readBits 8 c = .ok (2, c₁))
    (h2 : readBits 8 c₁ = .ok (dl, c₂))
    (h3 : readBits 32 c₂ = .ok (ident, c₃))
    (h4 : parseSegmentationDescriptor c₃ = .ok (d, c₄, sub))
    (h5 : parseSpliceDescriptors c₄ (L - 6 - sub) = .ok (rest, c₅, lf)) :
    parseSpliceDescriptors c L = .ok
      ({ d with splice_descriptor_tag := some 2
                descriptor_length := some dl
                identifier := some ident } :: rest, c₅, lf) := by
  unfold parseSpliceDescriptors
  rw [dif_neg hL]
  simp only [h1, h2, h3, h4, h5, bind, Except.bind]
  norm_num
  rfl

/-- One unfolding of the descriptor loop for the raising tags: 0x00, 0x01,
0x03 and unknown tags. -/
theorem parseSpliceDescriptors_tag_err {c : BitCursor} {L : Int}
    (hL : ¬ L ≤ 0) {t dl ident : Nat} {c₁ c₂ c₃ : BitCursor}
    (h1 : readBits 8 c = .ok (t, c₁))
    (h2 : readBits 8 c₁ = .ok (dl, c₂))
    (h3 : readBits 32 c₂ = .ok (ident, c₃)) :
    (t = 0x00 → parseSpliceDescriptors c L = .error
      (.spliceInfoSectionException
        ("avail_descriptor (" ++ toString t ++ ") not yet supported"))) ∧
    (t = 0x01 → parseSpliceDescriptors c L = .error
      (.spliceInfoSectionException
        ("DTMF_descriptor (" ++ toString t ++ ") not yet supported"))) ∧
    (t = 0x03 → parseSpliceDescriptors c L = .error
      (.spliceInfoSectionException
        ("time_descriptor (" ++ toString t ++ ") not yet supported"))) ∧
    (t ≠ 0x00 → t ≠ 0x01 → t ≠ 0x02 → t ≠ 0x03 →
      parseSpliceDescriptors c L = .error
        (.spliceInfoSectionException
          ("unknown splice_descriptor tag (" ++ toString t ++ ")"))) := by
  refine ⟨?_, ?_, ?_, ?_⟩
  · intro ht
    subst ht
    unfold parseSpliceDescriptors
    rw [dif_neg hL]
    simp only [h1, h2, h3, bind, Except.bind]
    simp [throw, throwThe, MonadExceptOf.throw]
  · intro ht
    subst ht
    unfold parseSpliceDescriptors
    rw [dif_neg hL]
    simp only [h1, h2, h3, bind, Except.bind]
    simp [throw, throwThe, MonadExceptOf.throw]
  · intro ht
    subst ht
    unfold parseSpliceDescriptors
    rw [dif_neg hL]
    simp only [h1, h2, h3, bind, Except.bind]
    simp [throw, throwThe, MonadExceptOf.throw]
  · intro ht0 ht1 ht2 ht3
    unfold parseSpliceDescriptors
    rw [dif_neg hL]
    simp only [h1, h2, h3, bind, Except.bind]
    rw [if_neg ht0, if_neg ht1, if_neg ht2, if_neg ht3]
    simp [throw, throwThe, MonadExceptOf.throw]

/-! ## Concrete demonstration inputs and their parse results -/

/-- A complete 21-byte message: valid header, splice-insert command
(type 5) with the `splice_event_cancel_indicator` bit set, descriptor
loop length 0. -/
def cancelledInsertMsg : List Nat :=
  [0xfc, 0, 0, 0, 0, 0, 0, 0, 0, 0, 0, 0, 0, 0x05, 0, 0, 0, 1, 0x80, 0, 0]

/-- The 13 header bytes of an all-zero message with a valid table id. -/
def headerDemo : List Nat := [0xfc, 0, 0, 0, 0, 0, 0, 0, 0, 0, 0, 0, 0]

/-- The header fields `headerDemo` parses to. -/
def hdrDemo : HeaderPart :=
  ⟨0xfc, false, false, 0, 0, false, 0, 0, 0, 0, 0⟩

/-- `headerDemo` followed by the unsupported splice command type 7. -/
def type7Msg : List Nat :=
  [0xfc, 0, 0, 0, 0, 0, 0, 0, 0, 0, 0, 0, 0, 0x07]

/-- The section `cancelledInsertMsg` decodes to: note the absent
(`none`) `splice_command`. -/
def cancelledSection : SCTE35_SpliceInfoSection :=
  { toHeaderPart := hdrDemo
    splice_command_type := 5
    splice_command := none
    splice_descriptor_loop_length := 0
    splice_descriptors := none }

/-- A non-cancelled splice-insert command body: event id 2,
`out_of_network_indicator` 1, `program_splice_flag` 1, `duration_flag` 0,
`splice_immediate_flag` 1, then `unique_program_id` 3, `avail_num` 4,
`avails_expected` 5. -/
def insertDemo : List Nat := [0, 0, 0, 2, 0, 0xd0, 0, 3, 4, 5]

/-- The splice insert parsed from `insertDemo`. -/
def insertDemoResult : SCTE35_SpliceInsert :=
  ⟨2, false, true, true, false, true, none, none, [], none, 3, 4, 5⟩

/-- A cancelled segmentation-descriptor body: event id 7, cancel bit
set. -/
def segCancelDemo : List Nat := [0, 0, 0, 7, 0x80]

/-- The descriptor parsed from `segCancelDemo` (header fields not yet
assigned). -/
def segCancelResult : SCTE35_SegmentationDescriptor :=
  { segmentation_event_id := some 7
    segmentation_event_cancel_indicator := some true }

/-- A descriptor record (tag 2, cancelled, 11 bytes) to run against a
declared loop length of only 1 byte: the counter ends at 1 - 6 - 5 =
-10. -/
def negDemo : List Nat := [2, 0, 0, 0, 0, 0, 0, 0, 0, 1, 0x80]

/-- The descriptor body parsed from `negDemo` before the loop assigns
the header fields. -/
def negDemoCore : SCTE35_SegmentationDescriptor :=
  { segmentation_event_id := some 1
    segmentation_event_cancel_indicator := some true }

/-- The finished descriptor parsed from `negDemo`. -/
def negDemoDescriptor : SCTE35_SegmentationDescriptor :=
  { splice_descriptor_tag := some 2
    descriptor_length := some 0
    identifier := some 0
    segmentation_event_id := some 1
    segmentation_event_cancel_indicator := some true }

/-- The descriptor loop on `negDemo` with declared length 1 succeeds and
leaves the running counter at -10. -/
theorem negDemo_eval :
    parseSpliceDescriptors (mkCursor negDemo) 1 =
      .ok ([negDemoDescriptor], ⟨bytesToBits negDemo, 88⟩, -10) := by
  have h1 : readBits 8 (mkCursor negDemo) =
      .ok (2, ⟨bytesToBits negDemo, 8⟩) := by rfl
  have h2 : readBits 8 (⟨bytesToBits negDemo, 8⟩ : BitCursor) =
      .ok (0, ⟨bytesToBits negDemo, 16⟩) := by rfl
  have h3 : readBits 32 (⟨bytesToBits negDemo, 16⟩ : BitCursor) =
      .ok (0, ⟨bytesToBits negDemo, 48⟩) := by rfl
  have h4 : parseSegmentationDescriptor
      (⟨bytesToBits negDemo, 48⟩ : BitCursor) =
      .ok (negDemoCore, ⟨bytesToBits negDemo, 88⟩, 5) := by rfl
  have h5 : parseSpliceDescriptors (⟨bytesToBits negDemo, 88⟩ : BitCursor)
      (1 - 6 - (5 : Nat)) =
      .ok ([], ⟨bytesToBits negDemo, 88⟩, 1 - 6 - (5 : Nat)) :=
    parseSpliceDescriptors_exit (by decide)
  exact parseSpliceDescriptors_tag2 (by decide) h1 h2 h3 h4 h5

/-! ## Claims -/

set_option maxRecDepth 8192 in
/-- C1: the claim says that for a cancelled splice-insert command the
parser reads no further fields for the command, yet decode still returns
a fully populated section whose `splice_command` is a complete
`SpliceInsert` value.  The code behaves otherwise: the `return ssi`
statement (source line 229) is indented inside the
`if not ssi.splice_event_cancel_indicator` block, so on the cancelled
path `__parse_splice_insert` falls off the end and returns `None`, and
the decoded section carries `splice_command = None`.  This theorem
evaluates the decoder on a concrete cancelled-insert message: the decode
succeeds (command type 5, cancel bit 1) with an absent command
payload. -/
theorem c1_cancelled_insert_command_absent :
    bitAt (bytesToBits cancelledInsertMsg) 144 = true ∧
    (parse cancelledInsertMsg).toOption.map
      (fun s => (s.splice_command_type, s.splice_command)) =
      some (5, none) := by
  exact ⟨rfl, rfl⟩

/-- C2 counterexample: the claim states that the cursor sits at bit
offset 97 right after the header, but on a concrete 13-byte header the
offset is 104 (the listed widths 8+1+1+2+12+8+1+6+33+8+12+12 sum to 104,
not 97). -/
theorem c2_counterexample :
    (parseHeader (mkCursor headerDemo)).toOption.map (fun p => p.2.pos) =
      some 104 ∧ (104 : Nat) ≠ 97 :=
  ⟨rfl, by decide⟩

/-- C2 (amended): whenever the section-header parse succeeds from offset
0, the fixed-width fields were read in the exact order
8+1+1+2(reserved)+12+8+1+6+33+8+12+12 bits (witnessed by each stored
field equalling the big-endian value of the corresponding bit slice at
offsets 0, 8, 9, 12, 24, 32, 33, 39, 72, 80, 92), and the cursor's bit
offset immediately after the header, before the splice_command_type byte
is read, is exactly 104 bits (not 97 as claimed). -/
theorem c2_header_layout {buf : List Nat} {hdr : HeaderPart}
    {c' : BitCursor}
    (hk : parseHeader (mkCursor buf) = .ok (hdr, c')) :
    c'.pos = 104 ∧
    hdr.table_id = 0xfc ∧
    hdr.table_id = uintAt (bytesToBits buf) 0 8 ∧
    hdr.section_syntax_indicator = bitAt (bytesToBits buf) 8 ∧
    hdr.private_indicator = bitAt (bytesToBits buf) 9 ∧
    hdr.section_length = uintAt (bytesToBits buf) 12 12 ∧
    hdr.protocol_version = uintAt (bytesToBits buf) 24 8 ∧
    hdr.encrypted_packet = bitAt (bytesToBits buf) 32 ∧
    hdr.encryption_algorithm = uintAt (bytesToBits buf) 33 6 ∧
    hdr.pts_adjustment = uintAt (bytesToBits buf) 39 33 ∧
    hdr.cw_index = uintAt (bytesToBits buf) 72 8 ∧
    hdr.tier = uintAt (bytesToBits buf) 80 12 ∧
    hdr.splice_command_length = uintAt (bytesToBits buf) 92 12 := by
  obtain ⟨hdd, hpos, hle, hfc, h1, h2, h3, h4, h5, h6, h7, h8, h9, h10,
    h11⟩ := parseHeader_spec hk
  exact ⟨hpos, hfc, h1, h2, h3, h4, h5, h6, h7, h8, h9, h10, h11⟩

/-- C2 witness: the header demo discharges the hypothesis of
`c2_header_layout`. -/
theorem c2_header_layout_witness :
    (⟨bytesToBits headerDemo, 104⟩ : BitCursor).pos = 104 :=
  (c2_header_layout (show parseHeader (mkCursor headerDemo) =
    .ok (hdrDemo, ⟨bytesToBits headerDemo, 104⟩) from rfl)).1

/-- C3 counterexample: the claim requires the two failures to be
distinguishable error kinds, "distinct error values, not merely distinct
message strings of one error kind".  On a known-but-unimplemented tag
(0x00) and on an unknown tag (0x07) the code raises the same exception
kind, `SCTE35_SpliceInfoSectionException`, with different message
strings only. -/
theorem c3_counterexample :
    parseSpliceDescriptors (mkCursor [0, 0, 0, 0, 0, 0]) 1 =
      .error (.spliceInfoSectionException
        "avail_descriptor (0) not yet supported") ∧
    parseSpliceDescriptors (mkCursor [7, 0, 0, 0, 0, 0]) 1 =
      .error (.spliceInfoSectionException
        "unknown splice_descriptor tag (7)") ∧
    Err.sameKind
      (.spliceInfoSectionException "avail_descriptor (0) not yet supported")
      (.spliceInfoSectionException "unknown splice_descriptor tag (7)") =
      true := by
  refine ⟨?_, ?_, rfl⟩
  · exact (parseSpliceDescriptors_tag_err (by decide)
      (show readBits 8 (mkCursor [0, 0, 0, 0, 0, 0]) =
        .ok (0, ⟨bytesToBits [0, 0, 0, 0, 0, 0], 8⟩) from rfl)
      (show readBits 8 (⟨bytesToBits [0, 0, 0, 0, 0, 0], 8⟩ : BitCursor) =
        .ok (0, ⟨bytesToBits [0, 0, 0, 0, 0, 0], 16⟩) from rfl)
      (show readBits 32 (⟨bytesToBits [0, 0, 0, 0, 0, 0], 16⟩ : BitCursor) =
        .ok (0, ⟨bytesToBits [0, 0, 0, 0, 0, 0], 48⟩) from rfl)).1 rfl
  · exact (parseSpliceDescriptors_tag_err (by decide)
      (show readBits 8 (mkCursor [7, 0, 0, 0, 0, 0]) =
        .ok (7, ⟨bytesToBits [7, 0, 0, 0, 0, 0], 8⟩) from rfl)
      (show readBits 8 (⟨bytesToBits [7, 0, 0, 0, 0, 0], 8⟩ : BitCursor) =
        .ok (0, ⟨bytesToBits [7, 0, 0, 0, 0, 0], 16⟩) from rfl)
      (show readBits 32 (⟨bytesToBits [7, 0, 0, 0, 0, 0], 16⟩ : BitCursor) =
        .ok (0, ⟨bytesToBits [7, 0, 0, 0, 0, 0], 48⟩) from rfl)).2.2.2
      (by decide) (by decide) (by decide) (by decide)

/-- C3 (amended): for a descriptor record whose tag is 0x00, 0x01 or
0x03 the decode fails with a `SCTE35_SpliceInfoSectionException` whose
message says the named descriptor is "not yet supported"; for a tag
outside {0x00, 0x01, 0x02, 0x03} it fails with a
`SCTE35_SpliceInfoSectionException` whose message says
"unknown splice_descriptor tag".  Both failures are values of the same
exception kind, distinguishable only by their message strings (the
counterexample shows `Err.sameKind` holds between them). -/
theorem c3_descriptor_tag_errors {c : BitCursor} {L : Int}
    (hL : ¬ L ≤ 0) {t dl ident : Nat} {c₁ c₂ c₃ : BitCursor}
    (h1 : readBits 8 c = .ok (t, c₁))
    (h2 : readBits 8 c₁ = .ok (dl, c₂))
    (h3 : readBits 32 c₂ = .ok (ident, c₃)) :
    (t = 0x00 → parseSpliceDescriptors c L = .error
      (.spliceInfoSectionException
        ("avail_descriptor (" ++ toString t ++ ") not yet supported"))) ∧
    (t = 0x01 → parseSpliceDescriptors c L = .error
      (.spliceInfoSectionException
        ("DTMF_descriptor (" ++ toString t ++ ") not yet supported"))) ∧
    (t = 0x03 → parseSpliceDescriptors c L = .error
      (.spliceInfoSectionException
        ("time_descriptor (" ++ toString t ++ ") not yet supported"))) ∧
    (t ≠ 0x00 → t ≠ 0x01 → t ≠ 0x02 → t ≠ 0x03 →
      parseSpliceDescriptors c L = .error
        (.spliceInfoSectionException
          ("unknown splice_descriptor tag (" ++ toString t ++ ")"))) :=
  parseSpliceDescriptors_tag_err hL h1 h2 h3

/-- C3 witness: tag 0x01 discharges the hypotheses of
`c3_descriptor_tag_errors`. -/
theorem c3_descriptor_tag_errors_witness :
    parseSpliceDescriptors (mkCursor [1, 0, 0, 0, 0, 0]) 1 =
      .error (.spliceInfoSectionException
        "DTMF_descriptor (1) not yet supported") :=
  (c3_descriptor_tag_errors (by decide)
    (show readBits 8 (mkCursor [1, 0, 0, 0, 0, 0]) =
      .ok (1, ⟨bytesToBits [1, 0, 0, 0, 0, 0], 8⟩) from rfl)
    (show readBits 8 (⟨bytesToBits [1, 0, 0, 0, 0, 0], 8⟩ : BitCursor) =
      .ok (0, ⟨bytesToBits [1, 0, 0, 0, 0, 0], 16⟩) from rfl)
    (show readBits 32 (⟨bytesToBits [1, 0, 0, 0, 0, 0], 16⟩ : BitCursor) =
      .ok (0, ⟨bytesToBits [1, 0, 0, 0, 0, 0], 48⟩) from rfl)).2.1 rfl

/-- C4 counterexample: the claim says the loop returns a successful
descriptor list only when the running counter reaches exactly 0 and that
an input driving it negative is treated as malformed.  On `negDemo` with
declared loop length 1 the counter ends at -10, yet the loop returns a
successful one-descriptor list. -/
theorem c4_counterexample :
    parseSpliceDescriptors (mkCursor negDemo) 1 =
      .ok ([negDemoDescriptor], ⟨bytesToBits negDemo, 88⟩, -10) ∧
    (-10 : Int) ≠ 0 :=
  ⟨negDemo_eval, by decide⟩

/-- C4 (amended): the loop terminates successfully exactly when the
running remaining-byte counter (initialized to the declared loop length
and decremented by the bytes each field group consumes) has become ≤ 0;
a successful exit guarantees only `counter ≤ 0`, not `counter = 0`, and
an input that drives the counter negative is still decoded successfully
rather than being treated as malformed. -/
theorem c4_loop_exit_nonpositive {c : BitCursor} {L : Int}
    {r : List SCTE35_SegmentationDescriptor} {c' : BitCursor} {lenF : Int}
    (h : parseSpliceDescriptors c L = .ok (r, c', lenF)) : lenF ≤ 0 :=
  (parseSpliceDescriptors_spec h).2.2.1

/-- C4 witness: the negative-counter run discharges the hypothesis of
`c4_loop_exit_nonpositive`. -/
theorem c4_loop_exit_nonpositive_witness : (-10 : Int) ≤ 0 :=
  c4_loop_exit_nonpositive negDemo_eval

/-- C5: a read of `n` bits that would advance the cursor past
`8 * len(buffer)` fails with the `truncatedInput` error value (the
decoder is a total function, so no panic or unclassified exception is
possible); a successful read advances the offset by exactly `n` and
never past the end of the data; the empty buffer decodes to
`truncatedInput`; and any successful decode leaves the final cursor at
an offset of at most `8 * len(buffer)`. -/
theorem c5_truncation_safety :
    (∀ (c : BitCursor) (n : Nat), c.data.length < c.pos + n →
      readBits n c = .error .truncatedInput) ∧
    (∀ (c : BitCursor) (n v : Nat) (c' : BitCursor),
      readBits n c = .ok (v, c') →
      c'.pos = c.pos + n ∧ c'.pos ≤ c.data.length) ∧
    parse [] = .error .truncatedInput ∧
    (∀ (buf : List Nat) (s : SCTE35_SpliceInfoSection) (c' : BitCursor),
      parseWithCursor buf = .ok (s, c') → c'.pos ≤ 8 * buf.length) := by
  refine ⟨?_, ?_, rfl, ?_⟩
  · intro c n h
    exact readBits_err h
  · intro c n v c' h
    obtain ⟨_, hp, hle, _⟩ := readBits_ok h
    exact ⟨hp, by omega⟩
  · intro buf s c' h
    obtain ⟨hd, hle, _⟩ := parseWithCursor_spec h
    rw [bytesToBits_length] at hle
    omega

set_option maxRecDepth 8192 in
/-- C5 witness: a concrete truncated read and a concrete successful
decode discharge the hypotheses of `c5_truncation_safety`. -/
theorem c5_truncation_safety_witness :
    readBits 8 (mkCursor []) = .error .truncatedInput ∧
    (⟨bytesToBits cancelledInsertMsg, 168⟩ : BitCursor).pos ≤
      8 * cancelledInsertMsg.length :=
  ⟨c5_truncation_safety.1 (mkCursor []) 8 (by decide),
   c5_truncation_safety.2.2.2 cancelledInsertMsg cancelledSection
     ⟨bytesToBits cancelledInsertMsg, 168⟩
     (show parseWithCursor cancelledInsertMsg =
       .ok (cancelledSection, ⟨bytesToBits cancelledInsertMsg, 168⟩)
       from rfl)⟩

/-- C6: after a successful header parse the decoder branches on the
8-bit splice_command_type: any value other than 5 and 6 makes the whole
decode fail with the unsupported-command exception carrying that code in
its message, returning no partial result; and when a decode succeeds the
command type was 5 (splice-insert payload, or the cancelled-path `None`)
or 6 (time-signal payload). -/
theorem c6_command_dispatch :
    (∀ (buf : List Nat) (hdr : HeaderPart) (c₁ : BitCursor) (t : Nat)
      (c₂ : BitCursor),
      parseHeader (mkCursor buf) = .ok (hdr, c₁) →
      readBits 8 c₁ = .ok (t, c₂) → t ≠ 5 → t ≠ 6 →
      parse buf = .error (.spliceInfoSectionException
        ("splice_command_type: " ++ toString t ++ " not yet supported"))) ∧
    (∀ (buf : List Nat) (s : SCTE35_SpliceInfoSection) (c' : BitCursor),
      parseWithCursor buf = .ok (s, c') →
      (s.splice_command_type = 5 ∨ s.splice_command_type = 6) ∧
      (s.splice_command_type = 5 →
        (s.splice_command = none ∨
          ∃ si, s.splice_command = some (.spliceInsert si))) ∧
      (s.splice_command_type = 6 →
        ∃ ts, s.splice_command = some (.timeSignal ts))) := by
  constructor
  · intro buf hdr c₁ t c₂ hH hT h5 h6
    exact parse_unsupported_command hH hT h5 h6
  · intro buf s c' h
    obtain ⟨_, _, hor, hc5, hc6, _⟩ := parseWithCursor_spec h
    exact ⟨hor, hc5, hc6⟩

set_option maxRecDepth 8192 in
/-- C6 witness: command type 7 discharges the hypotheses of the error
half of `c6_command_dispatch`, and the cancelled-insert message
discharges the success half. -/
theorem c6_command_dispatch_witness :
    parse type7Msg = .error (.spliceInfoSectionException
      "splice_command_type: 7 not yet supported") ∧
    (cancelledSection.splice_command_type = 5 ∨
      cancelledSection.splice_command_type = 6) :=
  ⟨c6_command_dispatch.1 type7Msg hdrDemo ⟨bytesToBits type7Msg, 104⟩ 7
      ⟨bytesToBits type7Msg, 112⟩
      (show parseHeader (mkCursor type7Msg) =
        .ok (hdrDemo, ⟨bytesToBits type7Msg, 104⟩) from rfl)
      (show readBits 8 (⟨bytesToBits type7Msg, 104⟩ : BitCursor) =
        .ok (7, ⟨bytesToBits type7Msg, 112⟩) from rfl)
      (by decide) (by decide),
   (c6_command_dispatch.2 cancelledInsertMsg cancelledSection
      ⟨bytesToBits cancelledInsertMsg, 168⟩
      (show parseWithCursor cancelledInsertMsg =
        .ok (cancelledSection, ⟨bytesToBits cancelledInsertMsg, 168⟩)
        from rfl)).1⟩

/-- C7: for every input buffer whose first byte is not 0xFC, decode
fails with the invalid-table-id exception (message
"<table_id> valid. Should be 0xfc") raised by the
`SCTE35_SpliceInfoSection` constructor, and the decode result does not
depend on any byte after the first: no further field of the message is
interpreted. -/
theorem c7_invalid_table_id :
    ∀ (b : Nat) (rest rest' : List Nat), b < 256 → b ≠ 0xfc →
    parse (b :: rest) = .error (.spliceInfoSectionException
      (toString b ++ " valid. Should be 0xfc")) ∧
    parse (b :: rest) = parse (b :: rest') := by
  intro b rest rest' hb hne
  refine ⟨parse_invalid_table_id rest hb hne, ?_⟩
  rw [parse_invalid_table_id rest hb hne,
    parse_invalid_table_id rest' hb hne]

set_option maxRecDepth 8192 in
/-- C7 witness: first byte 0xAB discharges the hypotheses of
`c7_invalid_table_id`. -/
theorem c7_invalid_table_id_witness :
    parse [0xab, 1, 2, 3] = .error (.spliceInfoSectionException
      "171 valid. Should be 0xfc") ∧
    parse [0xab, 1, 2, 3] = parse [0xab] :=
  c7_invalid_table_id 0xab [1, 2, 3] [] (by decide) (by decide)

/-- C8: whenever the splice-insert parser returns a (necessarily
non-cancelled) command value, a command-level splice time is present if
and only if `program_splice_flag` is set and `splice_immediate_flag` is
clear; in particular with both flags set no splice time is stored; and
`out_of_network_indicator` equals exactly the encoded bit, which sits 40
bits after the start of the command (32-bit event id + 1 cancel bit + 7
reserved bits). -/
theorem c8_splice_insert_conditions {c : BitCursor}
    {si : SCTE35_SpliceInsert} {c' : BitCursor}
    (h : parseSpliceInsert c = .ok (some si, c')) :
    si.splice_event_cancel_indicator = false ∧
    (si.splice_time.isSome ↔
      (si.program_splice_flag = true ∧ si.splice_immediate_flag = false)) ∧
    (si.program_splice_flag = true → si.splice_immediate_flag = true →
      si.splice_time = none) ∧
    si.out_of_network_indicator = bitAt c.data (c.pos + 40) :=
  (parseSpliceInsert_spec h).2.2 si rfl

set_option maxRecDepth 8192 in
/-- C8 witness: `insertDemo` (program_splice_flag = 1,
splice_immediate_flag = 1, out_of_network_indicator = 1) discharges the
hypothesis of `c8_splice_insert_conditions`. -/
theorem c8_splice_insert_conditions_witness :
    insertDemoResult.splice_event_cancel_indicator = false ∧
    (insertDemoResult.splice_time.isSome ↔
      (insertDemoResult.program_splice_flag = true ∧
        insertDemoResult.splice_immediate_flag = false)) ∧
    (insertDemoResult.program_splice_flag = true →
      insertDemoResult.splice_immediate_flag = true →
      insertDemoResult.splice_time = none) ∧
    insertDemoResult.out_of_network_indicator =
      bitAt (bytesToBits insertDemo) 40 :=
  c8_splice_insert_conditions
    (show parseSpliceInsert (mkCursor insertDemo) =
      .ok (some insertDemoResult, ⟨bytesToBits insertDemo, 80⟩) from rfl)

/-- C9: whenever the shared splice-time sub-parser succeeds, the number
of bits consumed is a deterministic function of the
`time_specified_flag` bit alone: exactly 40 bits when the flag is set
and exactly 8 bits when it is clear; `pts_time` is present in the result
if and only if the flag is set; and the returned flag equals the bit at
the cursor's starting offset. -/
theorem c9_splice_time_width {c : BitCursor} {st : Splice_Time}
    {c' : BitCursor} (h : parseSpliceTime c = .ok (st, c')) :
    c'.pos = c.pos + (if st.time_specified_flag then 40 else 8) ∧
    (st.pts_time.isSome ↔ st.time_specified_flag = true) ∧
    st.time_specified_flag = bitAt c.data c.pos := by
  obtain ⟨_, hpos, hflag, hiff, _⟩ := parseSpliceTime_spec h
  exact ⟨hpos, hiff, hflag⟩

/-- C9 witness: a splice time with the flag set (40 bits consumed)
discharges the hypothesis of `c9_splice_time_width`. -/
theorem c9_splice_time_width_witness :
    (⟨bytesToBits [0x80, 0, 0, 0, 0], 40⟩ : BitCursor).pos =
      0 + (if (Splice_Time.mk true (some 0)).time_specified_flag
        then 40 else 8) ∧
    ((Splice_Time.mk true (some 0)).pts_time.isSome ↔
      (Splice_Time.mk true (some 0)).time_specified_flag = true) ∧
    (Splice_Time.mk true (some 0)).time_specified_flag =
      bitAt (bytesToBits [0x80, 0, 0, 0, 0]) 0 :=
  c9_splice_time_width
    (show parseSpliceTime (mkCursor [0x80, 0, 0, 0, 0]) =
      .ok (⟨true, some 0⟩, ⟨bytesToBits [0x80, 0, 0, 0, 0], 40⟩) from rfl)

/-- C10: the per-component record construction of the segmentation
descriptor (`component = {}` followed by an attribute assignment on the
dict) aborts before any component's fields are stored, so: the component
loop never succeeds for a declared count of at least 1; a successfully
parsed segmentation descriptor always carries an unset or empty
component list; and no successful decode contains a
segmentation descriptor with a non-empty component list. -/
theorem c10_segmentation_components_unreachable :
    (∀ (count : Nat) (c : BitCursor)
      (r : List SegComponent × BitCursor), 1 ≤ count →
      segComponentLoop count c ≠ .ok r) ∧
    (∀ (c : BitCursor) (d : SCTE35_SegmentationDescriptor)
      (c' : BitCursor) (sub : Nat),
      parseSegmentationDescriptor c = .ok (d, c', sub) →
      d.components = none ∨ d.components = some []) ∧
    (∀ (buf : List Nat) (s : SCTE35_SpliceInfoSection) (c' : BitCursor),
      parseWithCursor buf = .ok (s, c') →
      ∀ l, s.splice_descriptors = some l →
      ∀ d ∈ l, d.components = none ∨ d.components = some []) := by
  refine ⟨?_, ?_, ?_⟩
  · intro count c r hc
    exact segComponentLoop_never_ok hc
  · intro c d c' sub h
    exact (parseSegmentationDescriptor_spec h).2.2
  · intro buf s c' h
    exact (parseWithCursor_spec h).2.2.2.2.2

/-- C10 witness: a count of 1 and a concrete cancelled segmentation
descriptor discharge the hypotheses of
`c10_segmentation_components_unreachable`. -/
theorem c10_segmentation_components_unreachable_witness :
    segComponentLoop 1 (mkCursor [5]) ≠ .ok ([], mkCursor [5]) ∧
    (segCancelResult.components = none ∨
      segCancelResult.components = some []) :=
  ⟨c10_segmentation_components_unreachable.1 1 (mkCursor [5])
      ([], mkCursor [5]) (by decide),
   c10_segmentation_components_unreachable.2.1 (mkCursor segCancelDemo)
      segCancelResult ⟨bytesToBits segCancelDemo, 40⟩ 5
      (show parseSegmentationDescriptor (mkCursor segCancelDemo) =
        .ok (segCancelResult, ⟨bytesToBits segCancelDemo, 40⟩, 5)
        from rfl)⟩

end SCTE35
